import Mathlib

/-!
Verification development for the RoboUber-style taxi simulation
(sources: node.py, fare.py, networld.py, dispatcher.py).

Shallow embedding conventions:
* Directions are indexed 0..7 (compass points N, NE, E, SE, S, SW, W, NW),
  modelled as Fin 8 with wrap-around arithmetic, matching the Python
  arithmetic done modulo 8.
* Python dictionaries keyed by direction become functions Fin 8 → Option _,
  so the "at most one occupant per direction" property of a dict is
  structural in the embedding.
* Python ints are ℤ (no overflow in Python); float quantities that the
  claims only compare (maxWait, distances, scores) are ℚ, with Python's
  round modelled by Mathlib's round (the difference in half-way tie-breaking
  never matters to any claim, which only use signs and inequalities).
* A Python method that can raise (KeyError on a missing dict key) returns
  Option: none models the raised exception, some the normal return.
* The world's taxi registry (a Python dict keyed by taxi object) becomes an
  association list keyed by taxi id, so state equality stays decidable.
-/

namespace AITaxi

/-- Taxi identity (the Python code keys registries by taxi object). -/
abbrev TaxiId := ℕ

/-- Compass direction index 0..7, as used throughout node.py. -/
abbrev Dir := Fin 8

/-- The per-node data of a Fare that node.py's clockTick reads:
call time and maximum wait (fare.py: calltime, maxWait properties). -/
structure FareAtNode where
  calltime : ℤ
  maxWait : ℚ
deriving DecidableEq

/-- State of a Node (node.py __init__ fields that the claims touch).
occupied maps a direction to (taxi, admission-completion timestamp);
incoming maps a direction to the taxi that indicated there. -/
structure NodeState where
  idx : ℤ × ℤ
  canStop : Bool
  capacity : ℕ
  occupied : Dir → Option (TaxiId × ℤ)
  incoming : Dir → Option TaxiId
  trafficLight : Dir
  trafficMax : ℤ
  trafficSrc : ℤ
  trafficSink : ℤ
  traffic : ℤ
  fare : Option FareAtNode
deriving DecidableEq

/-- Number of set entries of a direction-keyed dictionary
(the Python len() of the dict). -/
def optCount (f : Dir → Option α) : ℕ :=
  (Finset.univ.filter (fun d => (f d).isSome = true)).card

/-- len(self._occupied). -/
def occupiedSize (n : NodeState) : ℕ := optCount n.occupied

/-- len(self._incoming). -/
def incomingSize (n : NodeState) : ℕ := optCount n.incoming

/-- A taxi's world registry record (networld.py _taxis values):
current pose and admission pose, each (node index or none, direction as ℤ,
-1 meaning no direction). -/
structure WorldTaxiRec where
  current : Option (ℤ × ℤ) × ℤ
  admitPose : Option (ℤ × ℤ) × ℤ
deriving DecidableEq

/-- The world state that Node methods touch: simulation clock and the taxi
registry (networld.py self._time, self._taxis), the latter as an
association list to keep equality decidable. -/
structure WorldState where
  simTime : ℤ
  taxis : List (TaxiId × WorldTaxiRec)
deriving DecidableEq

namespace NetWorld

/-- NetWorld.travelTime (networld.py lines 395-414). The straight-line
distance2Node value (a Python float, a square root) is passed in as the
parameter dist; the claims only use the sign of the result, never the
rounded magnitude. -/
def travelTime (origin destination : Option NodeState) (dist : ℚ) : ℤ :=
  match destination with
  | none => 0
  | some d =>
    match origin with
    | none => if d.traffic = d.trafficMax then -1 else 0
    | some o =>
      if o.traffic = o.trafficMax ∨ d.traffic = d.trafficMax then -1
      else round (((o.traffic : ℚ) + (d.traffic : ℚ) + dist) / 2)

/-- NetWorld.clearAdmission (networld.py lines 459-465): if the taxi is
registered and its admission slot points at the given node, promote the
admission pose to the current pose and clear the admission slot. -/
def clearAdmission (w : WorldState) (nodeIdx : ℤ × ℤ) (taxi : TaxiId) : WorldState :=
  match (w.taxis.find? (fun p => p.1 = taxi)) with
  | none => w
  | some p =>
    if p.2.admitPose.1 = some nodeIdx then
      { w with taxis := w.taxis.map (fun q =>
          if q.1 = taxi then (q.1, ⟨p.2.admitPose, (none, -1)⟩) else q) }
    else w

end NetWorld

namespace Node

/-- Node.indicate (node.py lines 249-250): register the occupant as the
pending requester from that direction, overwriting any previous one. -/
def indicate (n : NodeState) (direction : Dir) (occupant : TaxiId) : NodeState :=
  { n with incoming := Function.update n.incoming direction (some occupant) }

/-- Node.abandon (node.py lines 253-255). The Python body reads
self._incoming[direction] unconditionally, so a direction with no pending
request raises KeyError: that outcome is the none result. Otherwise the
request is deleted only when it still belongs to the given occupant. -/
def abandon (n : NodeState) (direction : Dir) (occupant : TaxiId) : Option NodeState :=
  match n.incoming direction with
  | none => none
  | some t =>
    if t = occupant then
      some { n with incoming := Function.update n.incoming direction none }
    else some n

/-- Node.occupy (node.py lines 258-273). Returns the updated world, the
updated node, and some direction on success (the Python return value
(self, direction)) or none on failure (the Python sentinel (None, -1)).
The function is total: the Python body cannot raise. -/
def occupy (w : WorldState) (n : NodeState) (direction : Dir) (occupant : TaxiId)
    (origin : Option NodeState) (dist : ℚ) : WorldState × NodeState × Option Dir :=
  let time2Occupy := NetWorld.travelTime origin (some n) dist
  if occupiedSize n = n.capacity ∨ (n.occupied direction).isSome = true ∨
      ¬(n.incoming direction = some occupant) ∨ time2Occupy < 0 then
    (w, n, none)
  else
    (NetWorld.clearAdmission w n.idx occupant,
     { n with
        occupied := Function.update n.occupied direction (some (occupant, w.simTime + time2Occupy)),
        incoming := Function.update n.incoming direction none },
     some direction)

end Node

/-- Result of Node.turn (node.py lines 207-239): keyError models the Python
KeyError raised when directionIn is not occupied, sentinel models the
(None, -1) return, moved rel newDir models the ((neighbour at rel), newDir)
return (the updated neighbour is carried in the returned map). -/
inductive TurnResult
  | keyError
  | sentinel
  | moved (rel : Dir) (newDir : Dir)
deriving DecidableEq

/-- Result of Node.vacate (node.py lines 279-292): error models the Python
exception paths (KeyError on a missing occupant, AttributeError on a missing
neighbour), voided the (None, -1) return with no exit direction, stayed the
(self, directionIn) return on neighbour refusal, and moved dOut the
successful newSpace return. -/
inductive VacateResult
  | error
  | voided
  | stayed
  | moved (newDir : Dir)
deriving DecidableEq

/-- The taxi is physically present at the node in some direction. -/
def taxiAt (m : NodeState) (taxi : TaxiId) : Prop :=
  ∃ d : Dir, (m.occupied d).map Prod.fst = some taxi

instance (m : NodeState) (taxi : TaxiId) : Decidable (taxiAt m taxi) :=
  inferInstanceAs (Decidable (∃ d : Dir, (m.occupied d).map Prod.fst = some taxi))

namespace Node

/-- Node.turn (node.py lines 207-239). The neighbour list is the map
neighbours; directionOut = none models the Python default -1 (any negative
value triggers the straight-ahead computation), some d an explicit
out-direction 0..7. The guard order mirrors the Python short-circuit: the
gridlock test runs before the occupant lookup, so a gridlocked node returns
the sentinel even for an unoccupied directionIn. -/
def turn (n : NodeState) (neighbours : Dir → Option NodeState) (simTime : ℤ)
    (directionIn : Dir) (directionOut : Option Dir) :
    (Dir → Option NodeState) × TurnResult :=
  if n.traffic = n.trafficMax then (neighbours, TurnResult.sentinel)
  else
    match n.occupied directionIn with
    | none => (neighbours, TurnResult.keyError)
    | some entry =>
      if simTime - entry.2 < n.traffic then (neighbours, TurnResult.sentinel)
      else
        let relChoice : Option Dir :=
          match directionOut with
          | some d => some d
          | none =>
            let r : Dir := directionIn + 4
            if (neighbours r).isSome = true then some r
            else
              let r1 : Dir := r - 1
              let alt : Dir := r1 + 2
              if (neighbours r1).isSome = true then
                (if (neighbours alt).isSome = true then none else some r1)
              else if (neighbours alt).isSome = true then some alt
              else none
        match relChoice with
        | none => (neighbours, TurnResult.sentinel)
        | some rel =>
          match neighbours rel with
          | none => (neighbours, TurnResult.sentinel)
          | some b =>
            let newDir : Dir := rel + 4
            (Function.update neighbours rel (some (indicate b newDir entry.1)),
             TurnResult.moved rel newDir)

/-- Node.continueThrough (node.py lines 244-245): turn with the default
(negative) out-direction. -/
def continueThrough (n : NodeState) (neighbours : Dir → Option NodeState)
    (simTime : ℤ) (directionIn : Dir) : (Dir → Option NodeState) × TurnResult :=
  turn n neighbours simTime directionIn none

/-- Node.vacate (node.py lines 279-292). Returns the updated world, the
updated self node, the updated neighbour map and the outcome. -/
def vacate (w : WorldState) (n : NodeState) (neighbours : Dir → Option NodeState)
    (directionIn : Dir) (directionOut : Option Dir) (dist : ℚ) :
    WorldState × NodeState × (Dir → Option NodeState) × VacateResult :=
  match directionOut with
  | none =>
    match n.occupied directionIn with
    | none => (w, n, neighbours, VacateResult.error)
    | some _ => (w, { n with occupied := Function.update n.occupied directionIn none },
                 neighbours, VacateResult.voided)
  | some dOut =>
    let rel : Dir := dOut + 4
    match neighbours rel with
    | none => (w, n, neighbours, VacateResult.error)
    | some b =>
      match n.occupied directionIn with
      | none => (w, n, neighbours, VacateResult.error)
      | some entry =>
        let res := occupy w b dOut entry.1 (some n) dist
        match res.2.2 with
        | none => (w, n, neighbours, VacateResult.stayed)
        | some _ => (res.1,
                     { n with occupied := Function.update n.occupied directionIn none },
                     Function.update neighbours rel (some res.2.1),
                     VacateResult.moved dOut)

end Node

namespace Node

/-- Node.injectTraffic (node.py lines 174-183): add volume (possibly
negative) to the node's traffic, clamping only from above at the ceiling;
returns the new state and the Python return value (the amount actually
inserted). -/
def injectTraffic (n : NodeState) (volume : ℤ) : NodeState × ℤ :=
  if n.traffic > n.trafficMax then (n, 0)
  else
    let t := n.traffic + volume
    if t > n.trafficMax then ({ n with traffic := n.trafficMax }, volume - (t - n.trafficMax))
    else ({ n with traffic := t }, volume)

/-- Node.__init__ (node.py lines 33-65): fresh node with empty occupancy,
empty incoming queue, cursor 0, zero traffic, no fare; a traffic_cap
argument of 0 defaults the ceiling to 8; traffic_out is stored negated as
the intrinsic sink. -/
def new (index : ℤ × ℤ) (can_stop : Bool) (capacity : ℕ)
    (traffic_cap traffic_in traffic_out : ℤ) : NodeState :=
  { idx := index, canStop := can_stop, capacity := capacity,
    occupied := fun _ => none, incoming := fun _ => none, trafficLight := 0,
    trafficMax := if traffic_cap = 0 then 8 else traffic_cap,
    trafficSrc := traffic_in, trafficSink := -traffic_out,
    traffic := 0, fare := none }

end Node

/-- Per-tick environment of a node's clockTick: the world clock, each
neighbour's haveSpace reading (none where there is no neighbour), the
on-duty oracle for occupants, and the fare generator's draw together with
the maxWait the world would assign a newly inserted fare (networld.py
insertFare; the draw and the wait are random in Python, so they are
inputs here). The parent-side effects of the tick (addTraffic queueing,
admitTaxi, removeFare/insertFare registration) live in the world and do
not touch the node state this model tracks. -/
structure TickEnv where
  simTime : ℤ
  neighbourHasSpace : Dir → Option Bool
  onDuty : TaxiId → Bool
  fareAppears : Bool
  newFareWait : ℚ

namespace Node

/-- One iteration of the traffic flow-through loop of Node.clockTick
(node.py lines 125-129) for a single neighbour slot: if the neighbour
exists, has space and this node has traffic, one unit flows out (queued to
the parent) and the intrinsic sink is injected. -/
def flowStep (n : NodeState) (hs : Option Bool) : NodeState :=
  if hs = some true ∧ 0 < n.traffic then
    (injectTraffic { n with traffic := n.traffic - 1 } n.trafficSink).1
  else n

/-- The whole flow-through loop of Node.clockTick, over the 8 neighbour
slots in list order. -/
def flowTraffic (n : NodeState) (env : TickEnv) : NodeState :=
  (List.finRange 8).foldl (fun m d => flowStep m (env.neighbourHasSpace d)) n

/-- Node.clockTick lines 132-134: occupants whose taxi is off duty are
deleted. -/
def purgeOffDuty (n : NodeState) (onDuty : TaxiId → Bool) : NodeState :=
  { n with occupied := fun d =>
      match n.occupied d with
      | some e => if onDuty e.1 then some e else none
      | none => none }

/-- The traffic-light spin of Node.clockTick lines 142-144: advance the
cursor until it lands on a direction with a pending request or an
already-granted direction. The Python while loop has no fuel; it is only
entered when the incoming queue is nonempty, in which case a pending
direction lies within 7 steps of any start (directions are mod 8), so
fuel 8 reproduces it exactly. -/
def spin (incoming admitted : Dir → Option TaxiId) : Dir → ℕ → Dir
  | tl, 0 => tl
  | tl, Nat.succ k =>
    if (incoming tl).isNone = true ∧ (admitted tl).isNone = true then
      spin incoming admitted (tl + 1) k
    else tl

/-- The admission while loop of Node.clockTick lines 139-146. The Python
loop guard is remaining > 0 and len(admitted) < len(incoming), and
remaining decreases by exactly 1 each iteration, so remaining is a faithful
structural fuel. Returns the final cursor and the admitted dictionary. -/
def admitLoop (incoming : Dir → Option TaxiId) :
    ℕ → Dir → (Dir → Option TaxiId) → Dir × (Dir → Option TaxiId)
  | 0, tl, admitted => (tl, admitted)
  | Nat.succ r, tl, admitted =>
    if optCount admitted < optCount incoming then
      let tl2 := spin incoming admitted tl 8
      admitLoop incoming r tl2 (Function.update admitted tl2 (incoming tl2))
    else (tl, admitted)

/-- The admission stage of Node.clockTick lines 136-147: guarded by a
nonempty incoming queue, traffic strictly below the ceiling, and occupancy
at most capacity; the admitted dictionary is handed to the parent's
admitTaxi (empty when the guard fails, which matches Python, where
admitTaxi is simply not called). -/
def admitStage (n : NodeState) : NodeState × (Dir → Option TaxiId) :=
  if 0 < incomingSize n ∧ n.traffic < n.trafficMax ∧ occupiedSize n ≤ n.capacity then
    let res := admitLoop n.incoming (n.capacity - occupiedSize n) n.trafficLight (fun _ => none)
    ({ n with trafficLight := res.1 }, res.2)
  else (n, fun _ => none)

/-- The fare stage of Node.clockTick lines 149-157: an existing fare is
dropped (and reported to the parent's removeFare) exactly when
now - calltime > maxWait; otherwise, in stopping locations with no fare,
the generator may spawn a fresh fare with calltime now. -/
def fareStage (n : NodeState) (env : TickEnv) : NodeState :=
  match n.fare with
  | some f =>
    if (((env.simTime - f.calltime : ℤ) : ℚ) > f.maxWait) then { n with fare := none } else n
  | none =>
    if n.canStop = true ∧ env.fareAppears = true then
      { n with fare := some ⟨env.simTime, env.newFareWait⟩ }
    else n

/-- Node.clockTick (node.py lines 122-159), stages in source order: traffic
flow-through, off-duty purge, admission, fare expiry/spawn, intrinsic
traffic injection last. Returns the new node state and the admitted
dictionary passed to the parent. -/
def clockTick (n : NodeState) (env : TickEnv) : NodeState × (Dir → Option TaxiId) :=
  let n1 := flowTraffic n env
  let n2 := purgeOffDuty n1 env.onDuty
  let res := admitStage n2
  let n4 := fareStage res.1 env
  ((injectTraffic n4 n4.trafficSrc).1, res.2)

end Node

/-- The per-junction invariant of the claim: occupancy at most capacity,
traffic volume between 0 and the ceiling, and no fare where stopping is
disallowed. (The claim's remaining conjunct — at most one occupant per
direction — is structural here: occupied is a map Dir → Option, exactly
like a Python dict keyed by direction.) -/
def NodeInv (n : NodeState) : Prop :=
  occupiedSize n ≤ n.capacity ∧ 0 ≤ n.traffic ∧ n.traffic ≤ n.trafficMax ∧
  (n.canStop = false → n.fare = none)

instance (n : NodeState) : Decidable (NodeInv n) :=
  inferInstanceAs (Decidable (occupiedSize n ≤ n.capacity ∧ 0 ≤ n.traffic ∧
    n.traffic ≤ n.trafficMax ∧ (n.canStop = false → n.fare = none)))

/-- A junction in the fairness scenario: free capacity cap, no occupants,
no traffic, the given pending requests and cursor. -/
def mkNode (cap : ℕ) (inc : Dir → Option TaxiId) (tl : Dir) : NodeState :=
  { idx := (0, 0), canStop := true, capacity := cap, occupied := fun _ => none,
    incoming := inc, trafficLight := tl, trafficMax := 8, trafficSrc := 0,
    trafficSink := 0, traffic := 0, fare := none }

/-- The set of directions holding a pending request. -/
def pendingSet (inc : Dir → Option TaxiId) : Finset Dir :=
  Finset.univ.filter (fun d => (inc d).isSome = true)

/-- Modelled from the spec: the vehicle behaviour between grant stages is
not part of the core sources (the taxi module is an external collaborator),
so, per the spec's fairness scenario — free capacity C over successive
ticks with no new arrivals — each granted vehicle takes up its admission
(claimEntry consumes the pending request) and passes on, restoring the free
capacity before the next tick. Each tick therefore runs the real
Node.admitStage and then deletes precisely the granted requests; the
returned list is the grant order over the ticks. -/
def fairnessRun (cap : ℕ) : (Dir → Option TaxiId) → Dir → ℕ → List Dir
  | _, _, 0 => []
  | inc, tl, Nat.succ k =>
    let st := Node.admitStage (mkNode cap inc tl)
    ((List.finRange 8).filter (fun d => (st.2 d).isSome)) ++
      fairnessRun cap (fun d => if (st.2 d).isSome = true then none else inc d)
        st.1.trafficLight k

/-- Typed notifications delivered to taxis through recvMsg
(networld.py: FARE_ADVICE, FARE_ALLOC, FARE_CANCEL, FARE_PAY). -/
inductive Msg
  | fareAdvice (origin destination : ℤ × ℤ)
  | fareAlloc (origin destination : ℤ × ℤ)
  | fareCancel (origin : ℤ × ℤ)
  | farePay
deriving DecidableEq

/-- Dispatcher-side fare record (dispatcher.py FareEntry): taxi is the
index of the allocated taxi in the dispatcher's taxi list, -1 when
unallocated; bidders collects indices of bidding taxis. -/
structure FareEntryD where
  origin : ℤ × ℤ
  destination : ℤ × ℤ
  calltime : ℤ
  price : ℚ
  taxi : ℤ
  bidders : List ℕ
deriving DecidableEq

/-- The per-taxi facts Dispatcher._allocateFare reads: identity and
currentLocation (None while off the grid). -/
structure DTaxi where
  tid : TaxiId
  location : Option (ℤ × ℤ)
deriving DecidableEq

/-- Python list indexing semantics (l[i]): a negative index counts from
the end; none models IndexError. -/
def pyGet (l : List α) (i : ℤ) : Option α :=
  let j := if i < 0 then i + l.length else i
  if 0 ≤ j then l.get? j.toNat else none

namespace NetWorld

/-- NetWorld.allocateFare (networld.py lines 524-529) viewed through the
messages it emits: if the fare is still queued at origin, the taxi is
registered and on duty, exactly the winning taxi gets FARE_ALLOC;
otherwise nothing is sent (the fare may have abandoned, the taxi gone
off duty). -/
def allocateFare (fareQ : List (ℤ × ℤ)) (worldTaxis : List TaxiId)
    (onDuty : TaxiId → Bool) (origin destination : ℤ × ℤ) (taxi : TaxiId) :
    List (TaxiId × Msg) :=
  if origin ∈ fareQ ∧ taxi ∈ worldTaxis ∧ onDuty taxi = true then
    [(taxi, Msg.fareAlloc origin destination)]
  else []

/-- NetWorld.cancelFare (networld.py lines 535-541) viewed through the
messages it emits: an unknown taxi gets nothing; a known, on-duty taxi
gets FARE_CANCEL. -/
def cancelFare (worldTaxis : List TaxiId) (onDuty : TaxiId → Bool)
    (origin : ℤ × ℤ) (taxi : TaxiId) : List (TaxiId × Msg) :=
  if taxi ∈ worldTaxis then
    (if onDuty taxi = true then [(taxi, Msg.fareCancel origin)] else [])
  else []

end NetWorld

namespace Dispatcher

/-- The fare_count tally of Dispatcher._allocateFare lines 248-256: how
many board entries are currently assigned to the taxi at index i. The
board is the flat view of the (origin, destination, calltime)-nested
fareBoard. -/
def fareCount (board : List FareEntryD) (i : ℕ) : ℕ :=
  (board.filter (fun f => f.taxi = (i : ℤ))).length

/-- max(fare_count.values()) over the dispatcher's taxi indices (Python
max of a nonempty collection; _allocateFare is only reached when a bidder
exists, hence at least one taxi is known). -/
def maxFareCount (board : List FareEntryD) (numTaxis : ℕ) : ℕ :=
  ((List.range numTaxis).map (fareCount board)).foldr max 0

/-- The adjusted score of _allocateFare lines 263-266: the pluggable
calculate_score value (passed in as score, per the spec the scoring policy
is an external collaborator) scaled by 1 - fare_count/(max or 1), with
Python's x or 1 idiom mapping 0 to 1. -/
def adjustedScore (board : List FareEntryD) (numTaxis : ℕ) (score : ℕ → ℚ) (i : ℕ) : ℚ :=
  let m := maxFareCount board numTaxis
  let denom : ℚ := if m = 0 then 1 else (m : ℚ)
  score i * (1 - (fareCount board i : ℚ) / denom)

/-- The eligible list of _allocateFare lines 259-267: taxis with a known
currentLocation, in list order, paired with their adjusted scores. -/
def eligibleTaxis (taxis : List DTaxi) (board : List FareEntryD) (score : ℕ → ℚ) :
    List (ℕ × ℚ) :=
  (List.range taxis.length).filterMap (fun i =>
    match taxis.get? i with
    | some t =>
      if t.location.isSome = true then
        some (i, adjustedScore board taxis.length score i)
      else none
    | none => none)

/-- Stable descending insertion: the new element passes elements of
strictly smaller score and sits before the first element of score at most
its own, so equal scores keep input order — the semantics of Python's
stable list.sort with reverse=True used at _allocateFare line 270. -/
def insertDesc (x : ℕ × ℚ) : List (ℕ × ℚ) → List (ℕ × ℚ)
  | [] => [x]
  | y :: ys => if x.2 ≥ y.2 then x :: y :: ys else y :: insertDesc x ys

/-- Stable descending sort by score (Python list.sort(key=score,
reverse=True)). -/
def sortDesc : List (ℕ × ℚ) → List (ℕ × ℚ)
  | [] => []
  | x :: xs => insertDesc x (sortDesc xs)

/-- Characterization from the spec of the allocation winner: the first
element in input order whose score is maximal (ties broken by stable input
order). Used only in theorem statements, to compare with the code's
sort-then-take-head. -/
def firstMaxByScore : List (ℕ × ℚ) → Option (ℕ × ℚ)
  | [] => none
  | x :: xs =>
    match firstMaxByScore xs with
    | none => some x
    | some y => if y.2 > x.2 then some y else some x

/-- Dispatcher._allocateFare (dispatcher.py lines 246-288): build the
eligible list with adjusted scores, sort it stably by descending score,
allocate to the head, and inform the world, which notifies exactly the
winner. Returns the winning index (none when no taxi is eligible) and the
emitted messages. -/
def allocateFare (taxis : List DTaxi) (board : List FareEntryD) (score : ℕ → ℚ)
    (fareQ : List (ℤ × ℤ)) (worldTaxis : List TaxiId) (onDuty : TaxiId → Bool)
    (origin destination : ℤ × ℤ) : Option ℕ × List (TaxiId × Msg) :=
  match sortDesc (eligibleTaxis taxis board score) with
  | [] => (none, [])
  | (i, _) :: _ =>
    match taxis.get? i with
    | none => (none, [])
    | some t => (some i, NetWorld.allocateFare fareQ worldTaxis onDuty origin destination t.tid)

/-- Dispatcher.cancelFare (dispatcher.py lines 123-136) on the flat board
view: if the (origin, destination, calltime) entry exists, the entry is
deleted and the world's cancelFare is called on self._taxis[entry.taxi] —
with Python list indexing, so an unallocated entry (taxi = -1) designates
the LAST taxi in the dispatcher's list; none from pyGet (empty taxi list)
models the IndexError Python would raise. -/
def cancelFare (board : List FareEntryD) (taxis : List TaxiId)
    (worldTaxis : List TaxiId) (onDuty : TaxiId → Bool)
    (origin destination : ℤ × ℤ) (calltime : ℤ) :
    List FareEntryD × List (TaxiId × Msg) :=
  match board.find? (fun f => decide (f.origin = origin ∧ f.destination = destination ∧
      f.calltime = calltime)) with
  | none => (board, [])
  | some f =>
    (board.filter (fun g => decide (¬(g.origin = origin ∧ g.destination = destination ∧
        g.calltime = calltime))),
     match pyGet taxis f.taxi with
     | none => []
     | some t => NetWorld.cancelFare worldTaxis onDuty origin t)

end Dispatcher

/-- Node.occupy takes exactly one of two shapes: the failure sentinel with
all state unchanged, or the success update. Shared helper for the claims
about occupy-mediated movement. -/
theorem occupy_spec (w : WorldState) (n : NodeState) (direction : Dir)
    (occupant : TaxiId) (origin : Option NodeState) (dist : ℚ) :
    Node.occupy w n direction occupant origin dist = (w, n, none) ∨
    Node.occupy w n direction occupant origin dist =
      (NetWorld.clearAdmission w n.idx occupant,
       { n with
          occupied := Function.update n.occupied direction
            (some (occupant, w.simTime + NetWorld.travelTime origin (some n) dist)),
          incoming := Function.update n.incoming direction none },
       some direction) := by
  unfold Node.occupy
  by_cases h : occupiedSize n = n.capacity ∨ (n.occupied direction).isSome = true ∨
      ¬(n.incoming direction = some occupant) ∨ NetWorld.travelTime origin (some n) dist < 0
  · exact Or.inl (by rw [if_pos h])
  · exact Or.inr (by rw [if_neg h])

/-- C1: Node.occupy succeeds iff occupancy is below capacity, the direction
is free, a matching pending request exists, and the computed travel time is
non-negative; on success it records the occupant stamped now + travel time,
deletes the pending request, clears the vehicle's admission record in the
world registry, and returns the direction; on any failure it returns the
sentinel and leaves both the node and the world unchanged (the embedding is
total, mirroring that the Python body raises no exception). The hypothesis
occupiedSize n ≤ capacity is the reachable-state invariant under which the
code's occupancy == capacity test coincides with the claim's
occupancy < capacity. -/
theorem C1_occupy_success_iff (w : WorldState) (n : NodeState) (direction : Dir)
    (occupant : TaxiId) (origin : Option NodeState) (dist : ℚ)
    (hcap : occupiedSize n ≤ n.capacity) :
    ((Node.occupy w n direction occupant origin dist).2.2.isSome = true ↔
      (occupiedSize n < n.capacity ∧ n.occupied direction = none ∧
       n.incoming direction = some occupant ∧
       0 ≤ NetWorld.travelTime origin (some n) dist)) ∧
    ((Node.occupy w n direction occupant origin dist).2.2.isSome = true →
      (Node.occupy w n direction occupant origin dist).2.2 = some direction ∧
      (Node.occupy w n direction occupant origin dist).2.1.occupied direction =
        some (occupant, w.simTime + NetWorld.travelTime origin (some n) dist) ∧
      (Node.occupy w n direction occupant origin dist).2.1.incoming direction = none ∧
      (Node.occupy w n direction occupant origin dist).1 =
        NetWorld.clearAdmission w n.idx occupant) ∧
    ((Node.occupy w n direction occupant origin dist).2.2 = none →
      (Node.occupy w n direction occupant origin dist).1 = w ∧
      (Node.occupy w n direction occupant origin dist).2.1 = n) := by
  unfold Node.occupy
  by_cases hfail : occupiedSize n = n.capacity ∨ (n.occupied direction).isSome = true ∨
      ¬(n.incoming direction = some occupant) ∨ NetWorld.travelTime origin (some n) dist < 0
  · rw [if_pos hfail]
    refine ⟨?_, ?_, ?_⟩
    · simp only [Option.isSome_none, Bool.false_eq_true, false_iff]
      intro ⟨h1, h2, h3, h4⟩
      rcases hfail with h | h | h | h
      · exact absurd h (Nat.ne_of_lt h1)
      · rw [h2] at h; simp at h
      · exact h h3
      · omega
    · intro h; simp at h
    · intro _; exact ⟨rfl, rfl⟩
  · rw [if_neg hfail]
    push_neg at hfail
    obtain ⟨h1, h2, h3, h4⟩ := hfail
    refine ⟨?_, ?_, ?_⟩
    · simp only [Option.isSome_some, true_iff]
      refine ⟨lt_of_le_of_ne hcap h1, ?_, h3, by omega⟩
      cases hocc : n.occupied direction with
      | none => rfl
      | some v => rw [hocc] at h2; simp at h2
    · intro _
      refine ⟨rfl, ?_, ?_, rfl⟩
      · simp [Function.update_same]
      · simp [Function.update_same]
    · intro h; simp at h

/-- Witness for C1 at a concrete input: a node with one pending request at
direction 2 and free capacity admits that taxi. -/
theorem C1_occupy_success_iff_witness :
    occupiedSize
      { idx := (0, 0), canStop := true, capacity := 1,
        occupied := fun _ => none,
        incoming := fun d => if d = (2 : Dir) then some 7 else none,
        trafficLight := 0, trafficMax := 8, trafficSrc := 0, trafficSink := 0,
        traffic := 0, fare := none } ≤ 1 ∧
    ((Node.occupy ⟨5, []⟩
      { idx := (0, 0), canStop := true, capacity := 1,
        occupied := fun _ => none,
        incoming := fun d => if d = (2 : Dir) then some 7 else none,
        trafficLight := 0, trafficMax := 8, trafficSrc := 0, trafficSink := 0,
        traffic := 0, fare := none } 2 7 none 0).2.2.isSome = true ↔
      (occupiedSize
        { idx := (0, 0), canStop := true, capacity := 1,
          occupied := fun _ => none,
          incoming := fun d => if d = (2 : Dir) then some 7 else none,
          trafficLight := 0, trafficMax := 8, trafficSrc := 0, trafficSink := 0,
          traffic := 0, fare := none } < 1 ∧
       (fun _ => (none : Option (TaxiId × ℤ))) (2 : Dir) = none ∧
       (fun d => if d = (2 : Dir) then some 7 else none) (2 : Dir) = some 7 ∧
       0 ≤ NetWorld.travelTime none (some
        { idx := (0, 0), canStop := true, capacity := 1,
          occupied := fun _ => none,
          incoming := fun d => if d = (2 : Dir) then some 7 else none,
          trafficLight := 0, trafficMax := 8, trafficSrc := 0, trafficSink := 0,
          traffic := 0, fare := none }) 0)) :=
  ⟨by decide,
   (C1_occupy_success_iff ⟨5, []⟩
      { idx := (0, 0), canStop := true, capacity := 1,
        occupied := fun _ => none,
        incoming := fun d => if d = (2 : Dir) then some 7 else none,
        trafficLight := 0, trafficMax := 8, trafficSrc := 0, trafficSink := 0,
        traffic := 0, fare := none } 2 7 none 0 (by decide)).1⟩

/-- C5: a junction whose traffic volume equals its ceiling yields the
negative sentinel from travelTime both into it (from any origin, including
the void) and out of it (to any junction), and every Node.occupy attempt
against it fails with the sentinel, returning world and node unchanged (the
embedding is total: the Python body raises no exception). Stated for any
state with volume at ceiling, so the failure persists until the volume
drops strictly below the ceiling. -/
theorem C5_gridlock_sentinel (g : NodeState) (hg : g.traffic = g.trafficMax) :
    (∀ (o : Option NodeState) (dist : ℚ), NetWorld.travelTime o (some g) dist = -1) ∧
    (∀ (b : NodeState) (dist : ℚ), NetWorld.travelTime (some g) (some b) dist = -1) ∧
    (∀ (w : WorldState) (direction : Dir) (occupant : TaxiId)
       (origin : Option NodeState) (dist : ℚ),
       Node.occupy w g direction occupant origin dist = (w, g, none)) := by
  have h1 : ∀ (o : Option NodeState) (dist : ℚ), NetWorld.travelTime o (some g) dist = -1 := by
    intro o dist
    cases o with
    | none => simp [NetWorld.travelTime, hg]
    | some o' => simp [NetWorld.travelTime, hg]
  refine ⟨h1, ?_, ?_⟩
  · intro b dist
    simp [NetWorld.travelTime, hg]
  · intro w direction occupant origin dist
    unfold Node.occupy
    rw [if_pos]
    exact Or.inr (Or.inr (Or.inr (by rw [h1 origin dist]; norm_num)))

/-- Witness for C5 at a concrete gridlocked junction. -/
theorem C5_gridlock_sentinel_witness :
    ({ idx := (0, 0), canStop := true, capacity := 1,
       occupied := fun _ => none, incoming := fun _ => none,
       trafficLight := 0, trafficMax := 8, trafficSrc := 0, trafficSink := 0,
       traffic := 8, fare := none } : NodeState).traffic =
    ({ idx := (0, 0), canStop := true, capacity := 1,
       occupied := fun _ => none, incoming := fun _ => none,
       trafficLight := 0, trafficMax := 8, trafficSrc := 0, trafficSink := 0,
       traffic := 8, fare := none } : NodeState).trafficMax ∧
    NetWorld.travelTime none (some
      { idx := (0, 0), canStop := true, capacity := 1,
        occupied := fun _ => none, incoming := fun _ => none,
        trafficLight := 0, trafficMax := 8, trafficSrc := 0, trafficSink := 0,
        traffic := 8, fare := none }) 0 = -1 :=
  ⟨rfl,
   (C5_gridlock_sentinel
     { idx := (0, 0), canStop := true, capacity := 1,
       occupied := fun _ => none, incoming := fun _ => none,
       trafficLight := 0, trafficMax := 8, trafficSrc := 0, trafficSink := 0,
       traffic := 8, fare := none } rfl).1 none 0⟩

/-- C6 counterexample: withdrawing the same (direction, vehicle) twice is
not a no-op the second time. On a node whose only pending request is taxi 7
at direction 3, the first abandon removes the request, and the second
abandon raises KeyError (the none result) instead of leaving state
unchanged silently, refuting the claim as stated. -/
theorem C6_abandon_counterexample :
    Node.abandon
      { idx := (0, 0), canStop := true, capacity := 1,
        occupied := fun _ => none,
        incoming := fun d => if d = (3 : Dir) then some 7 else none,
        trafficLight := 0, trafficMax := 8, trafficSrc := 0, trafficSink := 0,
        traffic := 0, fare := none } 3 7 =
      some
      { idx := (0, 0), canStop := true, capacity := 1,
        occupied := fun _ => none,
        incoming := Function.update (fun d => if d = (3 : Dir) then some 7 else none) 3 none,
        trafficLight := 0, trafficMax := 8, trafficSrc := 0, trafficSink := 0,
        traffic := 0, fare := none } ∧
    Node.abandon
      { idx := (0, 0), canStop := true, capacity := 1,
        occupied := fun _ => none,
        incoming := Function.update (fun d => if d = (3 : Dir) then some 7 else none) 3 none,
        trafficLight := 0, trafficMax := 8, trafficSrc := 0, trafficSink := 0,
        traffic := 0, fare := none } 3 7 = none := by
  constructor
  · rfl
  · rfl

/-- C6 amended: a withdrawal whose direction holds a pending request by a
different vehicle is a silent no-op (state unchanged, no exception); a
matching withdrawal deletes the request; but a withdrawal at a direction
with no pending request — in particular the second of two identical
withdrawals after the first took effect — raises KeyError (the none result)
rather than being a no-op. -/
theorem C6_abandon_amended (n : NodeState) (d : Dir) (occupant : TaxiId) :
    (∀ t : TaxiId, n.incoming d = some t → t ≠ occupant →
      Node.abandon n d occupant = some n) ∧
    (n.incoming d = some occupant →
      Node.abandon n d occupant =
        some { n with incoming := Function.update n.incoming d none }) ∧
    (n.incoming d = none → Node.abandon n d occupant = none) := by
  refine ⟨?_, ?_, ?_⟩
  · intro t ht hne
    unfold Node.abandon
    rw [ht]
    simp [hne]
  · intro h
    unfold Node.abandon
    rw [h]
    simp
  · intro h
    unfold Node.abandon
    rw [h]

/-- Witness for C6 amended: a stale withdrawal by taxi 9 on a request held
by taxi 7 leaves the node unchanged. -/
theorem C6_abandon_amended_witness :
    ((fun d => if d = (3 : Dir) then some 7 else none) : Dir → Option TaxiId) (3 : Dir) = some 7 ∧
    Node.abandon
      { idx := (0, 0), canStop := true, capacity := 1,
        occupied := fun _ => none,
        incoming := fun d => if d = (3 : Dir) then some 7 else none,
        trafficLight := 0, trafficMax := 8, trafficSrc := 0, trafficSink := 0,
        traffic := 0, fare := none } 3 9 =
      some
      { idx := (0, 0), canStop := true, capacity := 1,
        occupied := fun _ => none,
        incoming := fun d => if d = (3 : Dir) then some 7 else none,
        trafficLight := 0, trafficMax := 8, trafficSrc := 0, trafficSink := 0,
        traffic := 0, fare := none } :=
  ⟨by decide,
   (C6_abandon_amended
     { idx := (0, 0), canStop := true, capacity := 1,
       occupied := fun _ => none,
       incoming := fun d => if d = (3 : Dir) then some 7 else none,
       trafficLight := 0, trafficMax := 8, trafficSrc := 0, trafficSink := 0,
       traffic := 0, fare := none } 3 9).1 7 (by decide) (by decide)⟩

/-- C10: while a junction's traffic equals its ceiling, or fewer ticks have
elapsed since the occupant's recorded admission-completion timestamp than
the junction's current traffic volume, Node.turn returns the sentinel for
every requested out-direction, and so does Node.continueThrough; the
returned neighbour map is the unchanged input, so no state changes. -/
theorem C10_turn_dwell (n : NodeState) (neighbours : Dir → Option NodeState)
    (simTime : ℤ) (directionIn : Dir) (directionOut : Option Dir)
    (entry : TaxiId × ℤ) (hocc : n.occupied directionIn = some entry)
    (hguard : n.traffic = n.trafficMax ∨ simTime - entry.2 < n.traffic) :
    Node.turn n neighbours simTime directionIn directionOut =
      (neighbours, TurnResult.sentinel) ∧
    Node.continueThrough n neighbours simTime directionIn =
      (neighbours, TurnResult.sentinel) := by
  have hmain : ∀ dOut : Option Dir,
      Node.turn n neighbours simTime directionIn dOut = (neighbours, TurnResult.sentinel) := by
    intro dOut
    unfold Node.turn
    by_cases hmax : n.traffic = n.trafficMax
    · rw [if_pos hmax]
    · rw [if_neg hmax, hocc]
      have hdwell : simTime - entry.2 < n.traffic := by
        rcases hguard with h | h
        · exact absurd h hmax
        · exact h
      dsimp only
      rw [if_pos hdwell]
  exact ⟨hmain directionOut, hmain none⟩

/-- Witness for C10: a taxi admitted at time 3 into a junction carrying
traffic 4 cannot leave at time 5 (5 - 3 < 4). -/
theorem C10_turn_dwell_witness :
    ((fun d => if d = (2 : Dir) then some ((7 : TaxiId), (3 : ℤ)) else none) : Dir → Option (TaxiId × ℤ)) (2 : Dir) = some (7, 3) ∧
    Node.turn
      { idx := (0, 0), canStop := true, capacity := 1,
        occupied := fun d => if d = (2 : Dir) then some ((7 : TaxiId), (3 : ℤ)) else none,
        incoming := fun _ => none,
        trafficLight := 0, trafficMax := 8, trafficSrc := 0, trafficSink := 0,
        traffic := 4, fare := none } (fun _ => none) 5 2 none =
      ((fun _ => none : Dir → Option NodeState), TurnResult.sentinel) :=
  ⟨by decide,
   (C10_turn_dwell
     { idx := (0, 0), canStop := true, capacity := 1,
       occupied := fun d => if d = (2 : Dir) then some ((7 : TaxiId), (3 : ℤ)) else none,
       incoming := fun _ => none,
       trafficLight := 0, trafficMax := 8, trafficSrc := 0, trafficSink := 0,
       traffic := 4, fare := none } (fun _ => none) 5 2 none (7, 3) (by decide)
     (Or.inr (by decide))).1⟩

/-- C3: for a vacate with an exit direction, given the leaving taxi holds
directionIn (and only it) of its junction and is not yet in the neighbour
at the diametrically opposite token, the outcome is stayed or moved — never
an exception; the occupant is removed from the current junction iff the
neighbour's Node.occupy succeeds; and afterwards the taxi is present in
exactly one of the two junctions, never neither and never both. -/
theorem C3_vacate_exactly_one (w : WorldState) (n b : NodeState)
    (neighbours : Dir → Option NodeState) (directionIn dOut : Dir)
    (taxi : TaxiId) (ts : ℤ) (dist : ℚ)
    (hb : neighbours (dOut + 4) = some b)
    (hocc : n.occupied directionIn = some (taxi, ts))
    (honly : ∀ d : Dir, d ≠ directionIn → (n.occupied d).map Prod.fst ≠ some taxi)
    (hnotb : ¬ taxiAt b taxi) :
    ((Node.vacate w n neighbours directionIn (some dOut) dist).2.2.2 = VacateResult.stayed ∨
     (Node.vacate w n neighbours directionIn (some dOut) dist).2.2.2 = VacateResult.moved dOut) ∧
    (¬ taxiAt (Node.vacate w n neighbours directionIn (some dOut) dist).2.1 taxi ↔
      ((Node.occupy w b dOut taxi (some n) dist).2.2.isSome = true)) ∧
    (∃ b' : NodeState,
      (Node.vacate w n neighbours directionIn (some dOut) dist).2.2.1 (dOut + 4) = some b' ∧
      (taxiAt b' taxi ↔ ¬ taxiAt (Node.vacate w n neighbours directionIn (some dOut) dist).2.1 taxi)) := by
  have hat : taxiAt n taxi := ⟨directionIn, by rw [hocc]; rfl⟩
  rcases occupy_spec w b dOut taxi (some n) dist with hres | hres
  · have hvac : Node.vacate w n neighbours directionIn (some dOut) dist =
        (w, n, neighbours, VacateResult.stayed) := by
      simp only [Node.vacate, hb, hocc, hres]
    rw [hvac]
    refine ⟨Or.inl rfl, ?_, ⟨b, hb, ?_⟩⟩
    · rw [hres]
      simp only [Option.isSome_none, Bool.false_eq_true, iff_false, not_not]
      exact hat
    · exact iff_of_false hnotb (not_not_intro hat)
  · have hvac : Node.vacate w n neighbours directionIn (some dOut) dist =
        ((Node.occupy w b dOut taxi (some n) dist).1,
         { n with occupied := Function.update n.occupied directionIn none },
         Function.update neighbours (dOut + 4) (some (Node.occupy w b dOut taxi (some n) dist).2.1),
         VacateResult.moved dOut) := by
      simp only [Node.vacate, hb, hocc, hres]
    rw [hvac]
    have hgone : ¬ taxiAt { n with occupied := Function.update n.occupied directionIn none } taxi := by
      rintro ⟨d, hd⟩
      dsimp only at hd
      by_cases hdir : d = directionIn
      · subst hdir
        rw [Function.update_same] at hd
        simp at hd
      · rw [Function.update_noteq hdir] at hd
        exact honly d hdir hd
    refine ⟨Or.inr rfl, ?_, ?_⟩
    · rw [hres]
      simp only [Option.isSome_some, iff_true]
      exact hgone
    · refine ⟨(Node.occupy w b dOut taxi (some n) dist).2.1,
        by dsimp only; rw [Function.update_same], ?_⟩
      have hin : taxiAt (Node.occupy w b dOut taxi (some n) dist).2.1 taxi := by
        rw [hres]
        exact ⟨dOut, by simp [Function.update_same]⟩
      simp only [hin, hgone, iff_true, not_false_iff]

/-- Witness for C3: taxi 7 leaves its junction eastward (dOut = 2) into an
empty willing neighbour; the move succeeds and the taxi ends up only in the
neighbour. -/
theorem C3_vacate_exactly_one_witness :
    (¬ taxiAt
      { idx := (1, 0), canStop := true, capacity := 1,
        occupied := fun _ => none,
        incoming := fun d => if d = (2 : Dir) then some 7 else none,
        trafficLight := 0, trafficMax := 8, trafficSrc := 0, trafficSink := 0,
        traffic := 0, fare := none } 7) ∧
    (¬ taxiAt (Node.vacate ⟨5, []⟩
      { idx := (0, 0), canStop := true, capacity := 1,
        occupied := fun d => if d = (6 : Dir) then some ((7 : TaxiId), (0 : ℤ)) else none,
        incoming := fun _ => none,
        trafficLight := 0, trafficMax := 8, trafficSrc := 0, trafficSink := 0,
        traffic := 0, fare := none }
      (fun d => if d = (6 : Dir) then some
        { idx := (1, 0), canStop := true, capacity := 1,
          occupied := fun _ => none,
          incoming := fun d' => if d' = (2 : Dir) then some 7 else none,
          trafficLight := 0, trafficMax := 8, trafficSrc := 0, trafficSink := 0,
          traffic := 0, fare := none } else none)
      6 (some 2) 1).2.1 7 ↔
      ((Node.occupy ⟨5, []⟩
        { idx := (1, 0), canStop := true, capacity := 1,
          occupied := fun _ => none,
          incoming := fun d' => if d' = (2 : Dir) then some 7 else none,
          trafficLight := 0, trafficMax := 8, trafficSrc := 0, trafficSink := 0,
          traffic := 0, fare := none } 2 7 (some
        { idx := (0, 0), canStop := true, capacity := 1,
          occupied := fun d => if d = (6 : Dir) then some ((7 : TaxiId), (0 : ℤ)) else none,
          incoming := fun _ => none,
          trafficLight := 0, trafficMax := 8, trafficSrc := 0, trafficSink := 0,
          traffic := 0, fare := none }) 1).2.2.isSome = true)) :=
  ⟨by decide,
   (C3_vacate_exactly_one ⟨5, []⟩
      { idx := (0, 0), canStop := true, capacity := 1,
        occupied := fun d => if d = (6 : Dir) then some ((7 : TaxiId), (0 : ℤ)) else none,
        incoming := fun _ => none,
        trafficLight := 0, trafficMax := 8, trafficSrc := 0, trafficSink := 0,
        traffic := 0, fare := none }
      { idx := (1, 0), canStop := true, capacity := 1,
        occupied := fun _ => none,
        incoming := fun d' => if d' = (2 : Dir) then some 7 else none,
        trafficLight := 0, trafficMax := 8, trafficSrc := 0, trafficSink := 0,
        traffic := 0, fare := none }
      (fun d => if d = (6 : Dir) then some
        { idx := (1, 0), canStop := true, capacity := 1,
          occupied := fun _ => none,
          incoming := fun d' => if d' = (2 : Dir) then some 7 else none,
          trafficLight := 0, trafficMax := 8, trafficSrc := 0, trafficSink := 0,
          traffic := 0, fare := none } else none)
      6 2 7 0 1 rfl (by decide) (by decide) (by decide)).2.1⟩

/-- injectTraffic only rewrites the traffic field. -/
theorem injectTraffic_shape (n : NodeState) (v : ℤ) :
    ∃ t', (Node.injectTraffic n v).1 = { n with traffic := t' } := by
  unfold Node.injectTraffic
  by_cases h1 : n.traffic > n.trafficMax
  · rw [if_pos h1]
    exact ⟨n.traffic, rfl⟩
  · rw [if_neg h1]
    by_cases h2 : n.traffic + v > n.trafficMax
    · rw [if_pos h2]
      exact ⟨n.trafficMax, rfl⟩
    · rw [if_neg h2]
      exact ⟨n.traffic + v, rfl⟩

/-- The traffic value injectTraffic produces. -/
theorem injectTraffic_traffic (n : NodeState) (v : ℤ) :
    (Node.injectTraffic n v).1.traffic =
      if n.traffic > n.trafficMax then n.traffic
      else if n.traffic + v > n.trafficMax then n.trafficMax
      else n.traffic + v := by
  unfold Node.injectTraffic
  by_cases h1 : n.traffic > n.trafficMax
  · rw [if_pos h1, if_pos h1]
  · rw [if_neg h1, if_neg h1]
    by_cases h2 : n.traffic + v > n.trafficMax
    · rw [if_pos h2, if_pos h2]
    · rw [if_neg h2, if_neg h2]

/-- A non-negative injection keeps the invariant: the volume is clamped at
the ceiling from above and cannot fall below its old value. -/
theorem injectTraffic_inv (n : NodeState) (v : ℤ) (h : NodeInv n) (hv : 0 ≤ v) :
    NodeInv (Node.injectTraffic n v).1 := by
  obtain ⟨h1, h2, h3, h4⟩ := h
  obtain ⟨t', ht⟩ := injectTraffic_shape n v
  have htr := injectTraffic_traffic n v
  rw [ht] at htr ⊢
  refine ⟨h1, ?_, ?_, h4⟩
  · dsimp only at htr ⊢
    rw [htr]
    split_ifs <;> omega
  · dsimp only at htr ⊢
    rw [htr]
    split_ifs <;> omega

/-- flowStep only rewrites the traffic field. -/
theorem flowStep_shape (m : NodeState) (hs : Option Bool) :
    ∃ t', Node.flowStep m hs = { m with traffic := t' } := by
  unfold Node.flowStep
  by_cases hc : hs = some true ∧ 0 < m.traffic
  · rw [if_pos hc]
    obtain ⟨t', ht⟩ := injectTraffic_shape { m with traffic := m.traffic - 1 } m.trafficSink
    exact ⟨t', ht⟩
  · rw [if_neg hc]
    exact ⟨m.traffic, rfl⟩

/-- With a zero intrinsic sink, flowStep keeps traffic within bounds. -/
theorem flowStep_traffic_bounds (m : NodeState) (hs : Option Bool)
    (hsink : m.trafficSink = 0) (h0 : 0 ≤ m.traffic) (h1 : m.traffic ≤ m.trafficMax) :
    0 ≤ (Node.flowStep m hs).traffic ∧ (Node.flowStep m hs).traffic ≤ m.trafficMax := by
  unfold Node.flowStep
  by_cases hc : hs = some true ∧ 0 < m.traffic
  · obtain ⟨hcs, hpos⟩ := hc
    rw [if_pos ⟨hcs, hpos⟩, injectTraffic_traffic, hsink]
    dsimp only
    constructor <;> (split_ifs <;> omega)
  · rw [if_neg hc]
    exact ⟨h0, h1⟩

/-- Fold invariance helper. -/
theorem foldl_preserve {α β : Type _} (P : α → Prop) (step : α → β → α) (l : List β) (a : α)
    (ha : P a) (hstep : ∀ x b, P x → P (step x b)) : P (l.foldl step a) := by
  induction l generalizing a with
  | nil => exact ha
  | cons b bs ih => exact ih (step a b) (hstep a b ha)

/-- The flow-through stage only rewrites the traffic field. -/
theorem flowTraffic_shape (n : NodeState) (env : TickEnv) :
    ∃ t', Node.flowTraffic n env = { n with traffic := t' } := by
  refine foldl_preserve (fun m => ∃ t', m = { n with traffic := t' }) _ _ _ ⟨n.traffic, rfl⟩ ?_
  intro x b hx
  obtain ⟨t, hxt⟩ := hx
  obtain ⟨t2, h2⟩ := flowStep_shape x (env.neighbourHasSpace b)
  subst hxt
  exact ⟨t2, h2⟩

/-- With a zero intrinsic sink, the flow-through stage keeps traffic within
bounds. -/
theorem flowTraffic_bounds (n : NodeState) (env : TickEnv) (hsink : n.trafficSink = 0)
    (h0 : 0 ≤ n.traffic) (h1 : n.traffic ≤ n.trafficMax) :
    0 ≤ (Node.flowTraffic n env).traffic ∧ (Node.flowTraffic n env).traffic ≤ n.trafficMax := by
  have hmain : (∃ t', Node.flowTraffic n env = { n with traffic := t' }) ∧
      0 ≤ (Node.flowTraffic n env).traffic ∧
      (Node.flowTraffic n env).traffic ≤ n.trafficMax := by
    refine foldl_preserve
      (fun m => (∃ t', m = { n with traffic := t' }) ∧ 0 ≤ m.traffic ∧ m.traffic ≤ n.trafficMax)
      _ _ _ ⟨⟨n.traffic, rfl⟩, h0, h1⟩ ?_
    intro x b hx
    obtain ⟨⟨t, hxt⟩, hb0, hb1⟩ := hx
    obtain ⟨t2, h2⟩ := flowStep_shape x (env.neighbourHasSpace b)
    subst hxt
    have hbnd := flowStep_traffic_bounds { n with traffic := t } (env.neighbourHasSpace b)
      hsink hb0 hb1
    exact ⟨⟨t2, h2⟩, hbnd⟩
  exact hmain.2

/-- The flow-through stage does not touch the fare. -/
theorem flowTraffic_fare (n : NodeState) (env : TickEnv) :
    (Node.flowTraffic n env).fare = n.fare := by
  obtain ⟨t', ht⟩ := flowTraffic_shape n env
  rw [ht]

/-- The admission stage only rewrites the cursor. -/
theorem admitStage_shape (n : NodeState) :
    ∃ c, (Node.admitStage n).1 = { n with trafficLight := c } := by
  unfold Node.admitStage
  by_cases h : 0 < incomingSize n ∧ n.traffic < n.trafficMax ∧ occupiedSize n ≤ n.capacity
  · rw [if_pos h]
    exact ⟨(Node.admitLoop n.incoming (n.capacity - occupiedSize n) n.trafficLight
      (fun _ => none)).1, rfl⟩
  · rw [if_neg h]
    exact ⟨n.trafficLight, rfl⟩

/-- C7: on a node holding an uncollected fare, clockTick removes the fare
exactly when now - callTime > maxWait and keeps it untouched otherwise; in
particular, for a fare created at tick 10 with maxWait 5, the expiry
condition holds exactly from tick 16 on, so the fare is abandoned at tick
16 and at no earlier tick. -/
theorem C7_fare_expiry (n : NodeState) (env : TickEnv) (f : FareAtNode)
    (hf : n.fare = some f) :
    ((Node.clockTick n env).1.fare = none ↔
      (((env.simTime - f.calltime : ℤ) : ℚ) > f.maxWait)) ∧
    (¬(((env.simTime - f.calltime : ℤ) : ℚ) > f.maxWait) →
      (Node.clockTick n env).1.fare = some f) ∧
    (f.calltime = 10 → f.maxWait = 5 →
      ((((env.simTime - f.calltime : ℤ) : ℚ) > f.maxWait) ↔ 16 ≤ env.simTime)) := by
  have h3 : (Node.admitStage (Node.purgeOffDuty (Node.flowTraffic n env) env.onDuty)).1.fare
      = some f := by
    obtain ⟨c, hc⟩ :=
      admitStage_shape (Node.purgeOffDuty (Node.flowTraffic n env) env.onDuty)
    rw [hc]
    show (Node.flowTraffic n env).fare = some f
    rw [flowTraffic_fare, hf]
  have htick : (Node.clockTick n env).1.fare =
      (Node.fareStage
        ((Node.admitStage (Node.purgeOffDuty (Node.flowTraffic n env) env.onDuty)).1) env).fare := by
    obtain ⟨t', ht⟩ := injectTraffic_shape
      (Node.fareStage
        ((Node.admitStage (Node.purgeOffDuty (Node.flowTraffic n env) env.onDuty)).1) env)
      (Node.fareStage
        ((Node.admitStage (Node.purgeOffDuty (Node.flowTraffic n env) env.onDuty)).1) env).trafficSrc
    show (Node.injectTraffic _ _).1.fare = _
    rw [ht]
  rw [htick]
  unfold Node.fareStage
  rw [h3]
  dsimp only
  refine ⟨?_, ?_, ?_⟩
  · by_cases hw : (((env.simTime - f.calltime : ℤ) : ℚ) > f.maxWait)
    · rw [if_pos hw]
      simpa using hw
    · rw [if_neg hw]
      simp only [h3]
      exact ⟨fun hcon => absurd hcon (by simp), fun hcon => absurd hcon hw⟩
  · intro hw
    rw [if_neg hw]
    exact h3
  · intro hc10 hw5
    rw [hc10, hw5]
    constructor
    · intro h
      by_contra hlt
      push_neg at hlt
      have hle : env.simTime ≤ 15 := by omega
      have : ((env.simTime - 10 : ℤ) : ℚ) ≤ 5 := by
        have : (env.simTime - 10 : ℤ) ≤ 5 := by omega
        exact_mod_cast this
      linarith
    · intro h
      have : (6 : ℚ) ≤ ((env.simTime - 10 : ℤ) : ℚ) := by
        have : (6 : ℤ) ≤ env.simTime - 10 := by omega
        exact_mod_cast this
      linarith

/-- Witness for C7: the fare called at tick 10 with maxWait 5 survives the
tick-15 clockTick and is removed by the tick-16 clockTick. -/
theorem C7_fare_expiry_witness :
    (({ idx := (0, 0), canStop := true, capacity := 1,
        occupied := fun _ => none, incoming := fun _ => none,
        trafficLight := 0, trafficMax := 8, trafficSrc := 0, trafficSink := 0,
        traffic := 0, fare := some ⟨10, 5⟩ } : NodeState).fare = some ⟨10, 5⟩) ∧
    ((Node.clockTick
      { idx := (0, 0), canStop := true, capacity := 1,
        occupied := fun _ => none, incoming := fun _ => none,
        trafficLight := 0, trafficMax := 8, trafficSrc := 0, trafficSink := 0,
        traffic := 0, fare := some ⟨10, 5⟩ }
      ⟨16, fun _ => none, fun _ => true, false, 0⟩).1.fare = none ↔
      ((((16 : ℤ) - (10 : ℤ) : ℤ) : ℚ) > (5 : ℚ))) :=
  ⟨rfl,
   (C7_fare_expiry
      { idx := (0, 0), canStop := true, capacity := 1,
        occupied := fun _ => none, incoming := fun _ => none,
        trafficLight := 0, trafficMax := 8, trafficSrc := 0, trafficSink := 0,
        traffic := 0, fare := some ⟨10, 5⟩ }
      ⟨16, fun _ => none, fun _ => true, false, 0⟩ ⟨10, 5⟩ rfl).1⟩

/-- Card of a direction map grows by one on filling an empty slot. -/
theorem optCount_update_some {β : Type _} (f : Dir → Option β) (d : Dir) (x : β)
    (h : f d = none) :
    optCount (Function.update f d (some x)) = optCount f + 1 := by
  unfold optCount
  have hset : (Finset.univ.filter fun e => ((Function.update f d (some x)) e).isSome = true)
      = insert d (Finset.univ.filter fun e => (f e).isSome = true) := by
    ext e
    simp only [Finset.mem_filter, Finset.mem_insert, Finset.mem_univ, true_and]
    by_cases he : e = d
    · subst he
      simp [Function.update_same]
    · simp [Function.update_noteq he, he]
  rw [hset, Finset.card_insert_of_not_mem]
  simp [h]

/-- Card of a direction map is monotone under pointwise definedness. -/
theorem optCount_le_of_imp {β : Type _} (f g : Dir → Option β)
    (h : ∀ d, (g d).isSome = true → (f d).isSome = true) : optCount g ≤ optCount f := by
  unfold optCount
  apply Finset.card_le_card
  intro e he
  simp only [Finset.mem_filter, Finset.mem_univ, true_and] at he ⊢
  exact h e he

/-- A successful occupy presupposes the slot was free and occupancy was not
at capacity. -/
theorem occupy_success_pre (w : WorldState) (n : NodeState) (direction : Dir)
    (occupant : TaxiId) (origin : Option NodeState) (dist : ℚ)
    (h : (Node.occupy w n direction occupant origin dist).2.2.isSome = true) :
    ¬(occupiedSize n = n.capacity) ∧ n.occupied direction = none := by
  unfold Node.occupy at h
  by_cases hc : occupiedSize n = n.capacity ∨ (n.occupied direction).isSome = true ∨
      ¬(n.incoming direction = some occupant) ∨ NetWorld.travelTime origin (some n) dist < 0
  · rw [if_pos hc] at h
    simp at h
  · push_neg at hc
    refine ⟨hc.1, ?_⟩
    cases hocc : n.occupied direction with
    | none => rfl
    | some v => exact absurd (by rw [hocc]; rfl) hc.2.1

/-- occupy preserves the junction invariant. -/
theorem occupy_inv (w : WorldState) (n : NodeState) (direction : Dir) (occupant : TaxiId)
    (origin : Option NodeState) (dist : ℚ) (h : NodeInv n) :
    NodeInv (Node.occupy w n direction occupant origin dist).2.1 := by
  rcases occupy_spec w n direction occupant origin dist with hs | hs
  · rw [hs]
    exact h
  · have hpre := occupy_success_pre w n direction occupant origin dist (by rw [hs]; rfl)
    rw [hs]
    obtain ⟨h1, h2, h3, h4⟩ := h
    refine ⟨?_, h2, h3, h4⟩
    show optCount (Function.update n.occupied direction
      (some (occupant, w.simTime + NetWorld.travelTime origin (some n) dist))) ≤ n.capacity
    rw [optCount_update_some n.occupied direction _ hpre.2]
    have h5 : optCount n.occupied < n.capacity := lt_of_le_of_ne h1 hpre.1
    omega

/-- Deleting an occupant preserves the junction invariant. -/
theorem occupied_remove_inv (n : NodeState) (dIn : Dir) (h : NodeInv n) :
    NodeInv { n with occupied := Function.update n.occupied dIn none } := by
  obtain ⟨h1, h2, h3, h4⟩ := h
  refine ⟨?_, h2, h3, h4⟩
  show optCount (Function.update n.occupied dIn none) ≤ n.capacity
  refine le_trans (optCount_le_of_imp n.occupied _ ?_) h1
  intro e he
  by_cases hed : e = dIn
  · subst hed
    rw [Function.update_same] at he
    simp at he
  · rw [Function.update_noteq hed] at he
    exact he

/-- vacate preserves the invariant of the junction being left. -/
theorem vacate_self_inv (w : WorldState) (n : NodeState)
    (neighbours : Dir → Option NodeState) (dIn : Dir) (dOut : Option Dir) (dist : ℚ)
    (h : NodeInv n) : NodeInv (Node.vacate w n neighbours dIn dOut dist).2.1 := by
  cases dOut with
  | none =>
    cases hocc : n.occupied dIn with
    | none =>
      have hv : (Node.vacate w n neighbours dIn none dist).2.1 = n := by
        simp only [Node.vacate, hocc]
      rw [hv]
      exact h
    | some e =>
      have hv : (Node.vacate w n neighbours dIn none dist).2.1 =
          { n with occupied := Function.update n.occupied dIn none } := by
        simp only [Node.vacate, hocc]
      rw [hv]
      exact occupied_remove_inv n dIn h
  | some d =>
    cases hnb : neighbours (d + 4) with
    | none =>
      have hv : (Node.vacate w n neighbours dIn (some d) dist).2.1 = n := by
        simp only [Node.vacate, hnb]
      rw [hv]
      exact h
    | some b =>
      cases hocc : n.occupied dIn with
      | none =>
        have hv : (Node.vacate w n neighbours dIn (some d) dist).2.1 = n := by
          simp only [Node.vacate, hnb, hocc]
        rw [hv]
        exact h
      | some e =>
        cases hres : (Node.occupy w b d e.1 (some n) dist).2.2 with
        | none =>
          have hv : (Node.vacate w n neighbours dIn (some d) dist).2.1 = n := by
            simp only [Node.vacate, hnb, hocc, hres]
          rw [hv]
          exact h
        | some v =>
          have hv : (Node.vacate w n neighbours dIn (some d) dist).2.1 =
              { n with occupied := Function.update n.occupied dIn none } := by
            simp only [Node.vacate, hnb, hocc, hres]
          rw [hv]
          exact occupied_remove_inv n dIn h

/-- vacate preserves the invariant of every junction in the neighbour map,
given occupy does (the only neighbour rewrite vacate performs is the
occupy result). -/
theorem vacate_neighbour_inv (w : WorldState) (n : NodeState)
    (neighbours : Dir → Option NodeState) (dIn : Dir) (dOut : Option Dir) (dist : ℚ)
    (d' : Dir) (b' : NodeState) (h : NodeInv n)
    (hnbs : ∀ (d'' : Dir) (b'' : NodeState), neighbours d'' = some b'' → NodeInv b'')
    (hres : (Node.vacate w n neighbours dIn dOut dist).2.2.1 d' = some b') :
    NodeInv b' := by
  cases dOut with
  | none =>
    cases hocc : n.occupied dIn with
    | none =>
      rw [show (Node.vacate w n neighbours dIn none dist).2.2.1 = neighbours from by
        simp only [Node.vacate, hocc]] at hres
      exact hnbs d' b' hres
    | some e =>
      rw [show (Node.vacate w n neighbours dIn none dist).2.2.1 = neighbours from by
        simp only [Node.vacate, hocc]] at hres
      exact hnbs d' b' hres
  | some d =>
    cases hnb : neighbours (d + 4) with
    | none =>
      rw [show (Node.vacate w n neighbours dIn (some d) dist).2.2.1 = neighbours from by
        simp only [Node.vacate, hnb]] at hres
      exact hnbs d' b' hres
    | some b =>
      cases hocc : n.occupied dIn with
      | none =>
        rw [show (Node.vacate w n neighbours dIn (some d) dist).2.2.1 = neighbours from by
          simp only [Node.vacate, hnb, hocc]] at hres
        exact hnbs d' b' hres
      | some e =>
        cases hr : (Node.occupy w b d e.1 (some n) dist).2.2 with
        | none =>
          rw [show (Node.vacate w n neighbours dIn (some d) dist).2.2.1 = neighbours from by
            simp only [Node.vacate, hnb, hocc, hr]] at hres
          exact hnbs d' b' hres
        | some v =>
          rw [show (Node.vacate w n neighbours dIn (some d) dist).2.2.1 =
              Function.update neighbours (d + 4) (some (Node.occupy w b d e.1 (some n) dist).2.1)
              from by simp only [Node.vacate, hnb, hocc, hr]] at hres
          by_cases hd : d' = d + 4
          · subst hd
            rw [Function.update_same] at hres
            have hb := Option.some.inj hres
            rw [← hb]
            exact occupy_inv w b d e.1 (some n) dist (hnbs _ b hnb)
          · rw [Function.update_noteq hd] at hres
            exact hnbs d' b' hres

/-- The off-duty purge only rewrites the occupied field. -/
theorem purgeOffDuty_shape (n : NodeState) (onDuty : TaxiId → Bool) :
    ∃ occ, Node.purgeOffDuty n onDuty = { n with occupied := occ } :=
  ⟨_, rfl⟩

/-- The off-duty purge preserves the invariant. -/
theorem purgeOffDuty_inv (n : NodeState) (onDuty : TaxiId → Bool) (h : NodeInv n) :
    NodeInv (Node.purgeOffDuty n onDuty) := by
  obtain ⟨h1, h2, h3, h4⟩ := h
  refine ⟨?_, h2, h3, h4⟩
  refine le_trans (optCount_le_of_imp n.occupied _ ?_) h1
  intro e he
  cases hocc : n.occupied e with
  | none => rw [show (Node.purgeOffDuty n onDuty).occupied e =
      (match n.occupied e with
        | some e' => if onDuty e'.1 = true then some e' else none
        | none => none) from rfl, hocc] at he; simp at he
  | some e' => rfl

/-- The fare stage only rewrites the fare field. -/
theorem fareStage_shape (n : NodeState) (env : TickEnv) :
    ∃ fo, Node.fareStage n env = { n with fare := fo } := by
  unfold Node.fareStage
  cases hf : n.fare with
  | some f =>
    dsimp only
    by_cases hw : (((env.simTime - f.calltime : ℤ) : ℚ) > f.maxWait)
    · rw [if_pos hw]
      exact ⟨none, rfl⟩
    · rw [if_neg hw]
      exact ⟨n.fare, rfl⟩
  | none =>
    dsimp only
    by_cases hc : n.canStop = true ∧ env.fareAppears = true
    · rw [if_pos hc]
      exact ⟨some ⟨env.simTime, env.newFareWait⟩, rfl⟩
    · rw [if_neg hc]
      exact ⟨n.fare, rfl⟩

/-- The fare stage preserves the invariant: a fresh fare only appears where
stopping is allowed. -/
theorem fareStage_inv (n : NodeState) (env : TickEnv) (h : NodeInv n) :
    NodeInv (Node.fareStage n env) := by
  obtain ⟨h1, h2, h3, h4⟩ := h
  unfold Node.fareStage
  cases hf : n.fare with
  | some f =>
    dsimp only
    by_cases hw : (((env.simTime - f.calltime : ℤ) : ℚ) > f.maxWait)
    · rw [if_pos hw]
      exact ⟨h1, h2, h3, fun _ => rfl⟩
    · rw [if_neg hw]
      exact ⟨h1, h2, h3, h4⟩
  | none =>
    dsimp only
    by_cases hc : n.canStop = true ∧ env.fareAppears = true
    · rw [if_pos hc]
      refine ⟨h1, h2, h3, fun hstop => ?_⟩
      rw [hc.1] at hstop
      exact absurd hstop (by simp)
    · rw [if_neg hc]
      exact ⟨h1, h2, h3, h4⟩

/-- clockTick preserves the invariant when the intrinsic sink is zero and
the intrinsic source non-negative. -/
theorem clockTick_inv (n : NodeState) (env : TickEnv) (h : NodeInv n)
    (hsink : n.trafficSink = 0) (hsrc : 0 ≤ n.trafficSrc) :
    NodeInv (Node.clockTick n env).1 := by
  obtain ⟨h1, h2, h3, h4⟩ := h
  obtain ⟨t1, hn1⟩ := flowTraffic_shape n env
  have hb1 := flowTraffic_bounds n env hsink h2 h3
  rw [hn1] at hb1
  have hInv1 : NodeInv (Node.flowTraffic n env) := by
    rw [hn1]
    exact ⟨h1, hb1.1, hb1.2, h4⟩
  have hInv2 : NodeInv (Node.purgeOffDuty (Node.flowTraffic n env) env.onDuty) :=
    purgeOffDuty_inv _ env.onDuty hInv1
  obtain ⟨c, hc⟩ := admitStage_shape (Node.purgeOffDuty (Node.flowTraffic n env) env.onDuty)
  have hInv3 : NodeInv (Node.admitStage (Node.purgeOffDuty (Node.flowTraffic n env) env.onDuty)).1 := by
    rw [hc]
    exact ⟨hInv2.1, hInv2.2.1, hInv2.2.2.1, hInv2.2.2.2⟩
  have hInv4 := fareStage_inv _ env hInv3
  have hsrc4 : (Node.fareStage
      (Node.admitStage (Node.purgeOffDuty (Node.flowTraffic n env) env.onDuty)).1 env).trafficSrc
      = n.trafficSrc := by
    obtain ⟨fo, hfo⟩ := fareStage_shape
      (Node.admitStage (Node.purgeOffDuty (Node.flowTraffic n env) env.onDuty)).1 env
    obtain ⟨occ2, hp⟩ := purgeOffDuty_shape (Node.flowTraffic n env) env.onDuty
    rw [hfo, hc, hp, hn1]
  show NodeInv (Node.injectTraffic _ _).1
  exact injectTraffic_inv _ _ hInv4 (by rw [hsrc4]; exact hsrc)

/-- C4 counterexample: the invariant as claimed is not preserved by every
operation: injectTraffic with a negative volume (the intrinsic sink of a
junction with positive traffic_out, or any negative injection) drives the
traffic volume below zero, because the code clamps only at the ceiling. -/
theorem C4_invariant_counterexample :
    NodeInv (Node.new (0, 0) true 1 0 0 0) ∧
    ¬ NodeInv (Node.injectTraffic (Node.new (0, 0) true 1 0 0 0) (-1)).1 := by
  constructor
  · decide
  · decide

/-- C4 amended: the invariant (occupancy at most capacity, one occupant per
direction structurally, traffic in [0, ceiling], no fare where stopping is
disallowed) holds after construction whenever the traffic-ceiling argument
is non-negative, and is preserved by indicate, abandon (when it returns
rather than raising), occupy, vacate (both for the junction left and for
every junction in the neighbour map), injectTraffic restricted to
non-negative volumes, and clockTick restricted to junctions with zero
intrinsic outflow and non-negative intrinsic inflow — the restrictions the
counterexample forces, since a negative injection can push traffic below
zero. -/
theorem C4_invariant_preserved :
    (∀ (index : ℤ × ℤ) (can_stop : Bool) (capacity : ℕ)
       (traffic_cap traffic_in traffic_out : ℤ), 0 ≤ traffic_cap →
       NodeInv (Node.new index can_stop capacity traffic_cap traffic_in traffic_out)) ∧
    (∀ (n : NodeState) (d : Dir) (t : TaxiId), NodeInv n → NodeInv (Node.indicate n d t)) ∧
    (∀ (n n' : NodeState) (d : Dir) (t : TaxiId), NodeInv n →
       Node.abandon n d t = some n' → NodeInv n') ∧
    (∀ (w : WorldState) (n : NodeState) (d : Dir) (t : TaxiId) (origin : Option NodeState)
       (dist : ℚ), NodeInv n → NodeInv (Node.occupy w n d t origin dist).2.1) ∧
    (∀ (w : WorldState) (n : NodeState) (neighbours : Dir → Option NodeState) (dIn : Dir)
       (dOut : Option Dir) (dist : ℚ), NodeInv n →
       NodeInv (Node.vacate w n neighbours dIn dOut dist).2.1) ∧
    (∀ (w : WorldState) (n : NodeState) (neighbours : Dir → Option NodeState) (dIn : Dir)
       (dOut : Option Dir) (dist : ℚ) (d' : Dir) (b' : NodeState), NodeInv n →
       (∀ (d'' : Dir) (b'' : NodeState), neighbours d'' = some b'' → NodeInv b'') →
       (Node.vacate w n neighbours dIn dOut dist).2.2.1 d' = some b' → NodeInv b') ∧
    (∀ (n : NodeState) (v : ℤ), NodeInv n → 0 ≤ v → NodeInv (Node.injectTraffic n v).1) ∧
    (∀ (n : NodeState) (env : TickEnv), NodeInv n → n.trafficSink = 0 → 0 ≤ n.trafficSrc →
       NodeInv (Node.clockTick n env).1) := by
  refine ⟨?_, ?_, ?_, ?_, ?_, ?_, ?_, ?_⟩
  · intro index cs cap tc ti tout htc
    refine ⟨?_, le_refl 0, ?_, fun _ => rfl⟩
    · have h0 : occupiedSize (Node.new index cs cap tc ti tout) = 0 := rfl
      rw [h0]
      exact Nat.zero_le _
    · show (0 : ℤ) ≤ if tc = 0 then 8 else tc
      split_ifs <;> omega
  · intro n d t h
    exact h
  · intro n n' d t h hab
    unfold Node.abandon at hab
    cases hin : n.incoming d with
    | none => rw [hin] at hab; exact absurd hab (by simp)
    | some t' =>
      rw [hin] at hab
      dsimp only at hab
      by_cases he : t' = t
      · rw [if_pos he] at hab
        have := Option.some.inj hab
        rw [← this]
        exact h
      · rw [if_neg he] at hab
        have := Option.some.inj hab
        rw [← this]
        exact h
  · exact fun w n d t origin dist h => occupy_inv w n d t origin dist h
  · exact fun w n neighbours dIn dOut dist h => vacate_self_inv w n neighbours dIn dOut dist h
  · exact fun w n neighbours dIn dOut dist d' b' h hnbs hres =>
      vacate_neighbour_inv w n neighbours dIn dOut dist d' b' h hnbs hres
  · exact fun n v h hv => injectTraffic_inv n v h hv
  · exact fun n env h hsink hsrc => clockTick_inv n env h hsink hsrc

/-- Witness for C4 amended: a concrete invariant-satisfying junction keeps
the invariant through a full clockTick. -/
theorem C4_invariant_preserved_witness :
    NodeInv
      { idx := (0, 0), canStop := true, capacity := 2,
        occupied := fun d => if d = (1 : Dir) then some ((4 : TaxiId), (0 : ℤ)) else none,
        incoming := fun d => if d = (3 : Dir) then some 9 else none,
        trafficLight := 0, trafficMax := 8, trafficSrc := 1, trafficSink := 0,
        traffic := 2, fare := none } ∧
    NodeInv (Node.clockTick
      { idx := (0, 0), canStop := true, capacity := 2,
        occupied := fun d => if d = (1 : Dir) then some ((4 : TaxiId), (0 : ℤ)) else none,
        incoming := fun d => if d = (3 : Dir) then some 9 else none,
        trafficLight := 0, trafficMax := 8, trafficSrc := 1, trafficSink := 0,
        traffic := 2, fare := none }
      ⟨7, fun d => if d = (0 : Dir) then some true else none, fun _ => true, true, 9⟩).1 :=
  ⟨by decide,
   C4_invariant_preserved.2.2.2.2.2.2.2
     { idx := (0, 0), canStop := true, capacity := 2,
       occupied := fun d => if d = (1 : Dir) then some ((4 : TaxiId), (0 : ℤ)) else none,
       incoming := fun d => if d = (3 : Dir) then some 9 else none,
       trafficLight := 0, trafficMax := 8, trafficSrc := 1, trafficSink := 0,
       traffic := 2, fare := none }
     ⟨7, fun d => if d = (0 : Dir) then some true else none, fun _ => true, true, 9⟩
     (by decide) (by decide) (by decide)⟩

/-- A direction map has positive size iff some slot is set. -/
theorem optCount_pos_iff {β : Type _} (f : Dir → Option β) :
    0 < optCount f ↔ ∃ d, (f d).isSome = true := by
  unfold optCount
  rw [Finset.card_pos]
  constructor
  · rintro ⟨d, hd⟩
    simp only [Finset.mem_filter, Finset.mem_univ, true_and] at hd
    exact ⟨d, hd⟩
  · rintro ⟨d, hd⟩
    exact ⟨d, by simp only [Finset.mem_filter, Finset.mem_univ, true_and]; exact hd⟩

/-- If a pending-or-granted direction lies within the spin's fuel, the spin
stops on a pending-or-granted direction. -/
theorem spin_stops (incoming admitted : Dir → Option TaxiId) :
    ∀ (f : ℕ) (tl : Dir),
      (∃ j : ℕ, j < f ∧ ((incoming (tl + (j : Fin 8))).isSome = true ∨
        (admitted (tl + (j : Fin 8))).isSome = true)) →
      ((incoming (Node.spin incoming admitted tl f)).isSome = true ∨
       (admitted (Node.spin incoming admitted tl f)).isSome = true) := by
  intro f
  induction f with
  | zero =>
    rintro tl ⟨j, hj, _⟩
    omega
  | succ k ih =>
    rintro tl ⟨j, hj, hP⟩
    by_cases hc : (incoming tl).isNone = true ∧ (admitted tl).isNone = true
    · rw [show Node.spin incoming admitted tl (k + 1) =
        Node.spin incoming admitted (tl + 1) k from by
          conv_lhs => rw [Node.spin]
          rw [if_pos hc]]
      apply ih
      have hj0 : j ≠ 0 := by
        intro h0
        subst h0
        rw [Nat.cast_zero, add_zero] at hP
        rcases hP with hP | hP
        · have hc1 := hc.1
          rw [Option.isNone_iff_eq_none] at hc1
          rw [hc1] at hP
          simp at hP
        · have hc2 := hc.2
          rw [Option.isNone_iff_eq_none] at hc2
          rw [hc2] at hP
          simp at hP
      obtain ⟨j', rfl⟩ : ∃ j'', j = j'' + 1 := ⟨j - 1, by omega⟩
      refine ⟨j', by omega, ?_⟩
      have harith : tl + ((j' + 1 : ℕ) : Fin 8) = (tl + 1) + (j' : Fin 8) := by
        push_cast
        ring
      rw [harith] at hP
      exact hP
    · rw [show Node.spin incoming admitted tl (k + 1) = tl from by
        unfold Node.spin; rw [if_neg hc]]
      by_cases h1 : (incoming tl).isSome = true
      · exact Or.inl h1
      · by_cases h2 : (admitted tl).isSome = true
        · exact Or.inr h2
        · exfalso
          apply hc
          constructor
          · rw [Option.isNone_iff_eq_none]
            exact Option.not_isSome_iff_eq_none.mp h1
          · rw [Option.isNone_iff_eq_none]
            exact Option.not_isSome_iff_eq_none.mp h2

/-- With no grants yet and a nonempty incoming queue, the fuel-8 spin lands
on a pending direction (all 8 directions are visited). -/
theorem spin_empty_lands (incoming : Dir → Option TaxiId) (tl : Dir)
    (hne : ∃ d, (incoming d).isSome = true) :
    (incoming (Node.spin incoming (fun _ => none) tl 8)).isSome = true := by
  obtain ⟨d, hd⟩ := hne
  have hP : (incoming (tl + (((d - tl).val : ℕ) : Fin 8))).isSome = true ∨
      ((fun _ => (none : Option TaxiId)) (tl + (((d - tl).val : ℕ) : Fin 8))).isSome = true := by
    left
    rw [Fin.cast_val_eq_self (d - tl), show tl + (d - tl) = d from by ring]
    exact hd
  have h8 := spin_stops incoming (fun _ => none) 8 tl ⟨(d - tl).val, (d - tl).isLt, hP⟩
  rcases h8 with h | h
  · exact h
  · simp at h

/-- The spin does not move off a pending direction. -/
theorem spin_at_pending (incoming admitted : Dir → Option TaxiId) (d : Dir) (f : ℕ)
    (hd : (incoming d).isSome = true) (hf : f ≠ 0) :
    Node.spin incoming admitted d f = d := by
  cases f with
  | zero => exact absurd rfl hf
  | succ k =>
    have hng : ¬((incoming d).isNone = true ∧ (admitted d).isNone = true) := by
      rintro ⟨hc1, _⟩
      rw [Option.isNone_iff_eq_none] at hc1
      rw [hc1] at hd
      simp at hd
    unfold Node.spin
    rw [if_neg hng]

/-- Once a direction has been granted, further loop iterations re-grant the
same direction without changing the admitted dictionary: the cursor is
never advanced off a granted direction whose request is still pending. -/
theorem admitLoop_stable (incoming : Dir → Option TaxiId) (r : ℕ) (d : Dir)
    (admitted : Dir → Option TaxiId) (hd : (incoming d).isSome = true)
    (ha : admitted d = incoming d) :
    Node.admitLoop incoming r d admitted = (d, admitted) := by
  induction r with
  | zero => rfl
  | succ k ih =>
    unfold Node.admitLoop
    by_cases hlt : optCount admitted < optCount incoming
    · rw [if_pos hlt]
      rw [spin_at_pending incoming admitted d 8 hd (by omega)]
      dsimp only
      rw [show Function.update admitted d (incoming d) = admitted from by
        rw [← ha]; exact Function.update_eq_self d admitted]
      exact ih
    · rw [if_neg hlt]

/-- Net effect of the admission loop from an empty admitted dictionary:
with positive remaining capacity and a nonempty incoming queue, exactly one
direction is granted (the loop burns any further capacity re-granting it). -/
theorem admitLoop_net (incoming : Dir → Option TaxiId) (r : ℕ) (tl : Dir)
    (hne : ∃ d, (incoming d).isSome = true) (hr : 0 < r) :
    ∃ d, (incoming d).isSome = true ∧
      Node.admitLoop incoming r tl (fun _ => none) =
        (d, Function.update (fun _ => none) d (incoming d)) := by
  obtain ⟨r', rfl⟩ : ∃ r'', r = r'' + 1 := ⟨r - 1, by omega⟩
  have hd := spin_empty_lands incoming tl hne
  refine ⟨Node.spin incoming (fun _ => none) tl 8, hd, ?_⟩
  have hlt : optCount (fun _ => (none : Option TaxiId)) < optCount incoming := by
    have h0 : optCount (fun _ => (none : Option TaxiId)) = 0 := rfl
    rw [h0]
    exact (optCount_pos_iff incoming).mpr hne
  unfold Node.admitLoop
  rw [if_pos hlt]
  dsimp only
  exact admitLoop_stable incoming r' _ _ hd (by rw [Function.update_same])

/-- The admission stage of a free junction with pending requests grants
exactly one pending direction per tick. -/
theorem admitStage_mkNode_granted (cap : ℕ) (inc : Dir → Option TaxiId) (tl : Dir)
    (hcap : 0 < cap) (hne : ∃ d, (inc d).isSome = true) :
    ∃ d, (inc d).isSome = true ∧
      (Node.admitStage (mkNode cap inc tl)).2 =
        Function.update (fun _ => none) d (inc d) := by
  obtain ⟨d, hd, hloop⟩ := admitLoop_net inc cap tl hne hcap
  refine ⟨d, hd, ?_⟩
  have h0 : occupiedSize (mkNode cap inc tl) = 0 := rfl
  have hg : 0 < incomingSize (mkNode cap inc tl) ∧
      (mkNode cap inc tl).traffic < (mkNode cap inc tl).trafficMax ∧
      occupiedSize (mkNode cap inc tl) ≤ (mkNode cap inc tl).capacity := by
    refine ⟨(optCount_pos_iff inc).mpr hne, ?_, ?_⟩
    · show (0 : ℤ) < 8
      norm_num
    · show occupiedSize (mkNode cap inc tl) ≤ cap
      rw [h0]
      exact Nat.zero_le cap
  unfold Node.admitStage
  rw [if_pos hg]
  show (Node.admitLoop inc (cap - occupiedSize (mkNode cap inc tl)) tl (fun _ => none)).2 =
    Function.update (fun _ => none) d (inc d)
  rw [h0, Nat.sub_zero, hloop]

/-- Deleting a set slot shrinks the pending set by exactly that slot. -/
theorem pendingSet_update_none (inc : Dir → Option TaxiId) (d : Dir) :
    pendingSet (Function.update inc d none) = (pendingSet inc).erase d := by
  unfold pendingSet
  ext e
  simp only [Finset.mem_filter, Finset.mem_univ, true_and, Finset.mem_erase]
  by_cases he : e = d
  · subst he
    simp [Function.update_same]
  · simp [Function.update_noteq he, he]

/-- Deleting a set slot decrements the count. -/
theorem optCount_update_none (inc : Dir → Option TaxiId) (d : Dir)
    (hd : (inc d).isSome = true) :
    optCount (Function.update inc d none) = optCount inc - 1 := by
  have hcard : optCount (Function.update inc d none) = ((pendingSet inc).erase d).card := by
    show (pendingSet (Function.update inc d none)).card = _
    rw [pendingSet_update_none]
  have hmem : d ∈ pendingSet inc := by
    simp only [pendingSet, Finset.mem_filter, Finset.mem_univ, true_and]
    exact hd
  rw [hcard, Finset.card_erase_of_mem hmem]
  rfl

/-- Filtering the direction list for a single direction. -/
theorem filter_finRange_single :
    ∀ d : Dir, (List.finRange 8).filter (fun e => decide (e = d)) = [d] := by decide

/-- C2: with N vehicles holding pending requests at a junction with free
capacity cap (any 0 < cap, in particular C < N as in the claim) and no new
arrivals, running the real grant stage (Node.admitStage) each tick — with
the spec-modelled vehicle behaviour that each granted vehicle takes up its
admission, consuming its request and restoring the free capacity — admits
every requester within N ticks (one distinct grant per tick, so the run has
length N, no duplicates, and covers exactly the pending set): no requester
is granted twice, hence none is skipped twice while another is granted
twice. -/
theorem C2_round_robin_fairness (cap : ℕ) (hcap : 0 < cap) :
    ∀ (N : ℕ) (inc : Dir → Option TaxiId) (tl : Dir), optCount inc = N →
      (fairnessRun cap inc tl N).Nodup ∧
      (fairnessRun cap inc tl N).toFinset = pendingSet inc ∧
      (fairnessRun cap inc tl N).length = N := by
  intro N
  induction N with
  | zero =>
    intro inc tl h0
    refine ⟨List.nodup_nil, ?_, rfl⟩
    have hempty : pendingSet inc = ∅ := Finset.card_eq_zero.mp h0
    rw [hempty]
    rfl
  | succ k ih =>
    intro inc tl hN
    have hne : ∃ d, (inc d).isSome = true := (optCount_pos_iff inc).mp (by omega)
    obtain ⟨d, hd, hst2⟩ := admitStage_mkNode_granted cap inc tl hcap hne
    have hstep : fairnessRun cap inc tl (k + 1) =
        ((List.finRange 8).filter
          (fun e => ((Node.admitStage (mkNode cap inc tl)).2 e).isSome)) ++
        fairnessRun cap
          (fun e => if ((Node.admitStage (mkNode cap inc tl)).2 e).isSome = true then none
                    else inc e)
          (Node.admitStage (mkNode cap inc tl)).1.trafficLight k := rfl
    have hpredeq : (fun e => ((Node.admitStage (mkNode cap inc tl)).2 e).isSome) =
        (fun e => decide (e = d)) := by
      rw [hst2]
      funext e
      by_cases he : e = d
      · subst he
        simp [Function.update_same, hd]
      · simp [Function.update_noteq he, he]
    have hgranted : ((List.finRange 8).filter
        (fun e => ((Node.admitStage (mkNode cap inc tl)).2 e).isSome)) = [d] := by
      rw [hpredeq]
      exact filter_finRange_single d
    have hinc' : (fun e => if ((Node.admitStage (mkNode cap inc tl)).2 e).isSome = true
        then none else inc e) = Function.update inc d none := by
      rw [hst2]
      funext e
      by_cases he : e = d
      · subst he
        rw [if_pos (by rw [Function.update_same]; exact hd), Function.update_same]
      · rw [if_neg (by rw [Function.update_noteq he]; simp), Function.update_noteq he]
    have hcount' : optCount (Function.update inc d none) = k := by
      rw [optCount_update_none inc d hd, hN]
      omega
    obtain ⟨ihnodup, ihset, ihlen⟩ :=
      ih (Function.update inc d none)
        (Node.admitStage (mkNode cap inc tl)).1.trafficLight hcount'
    have hdmem : d ∈ pendingSet inc := by
      simp only [pendingSet, Finset.mem_filter, Finset.mem_univ, true_and]
      exact hd
    rw [hstep, hgranted, hinc', List.singleton_append]
    refine ⟨?_, ?_, ?_⟩
    · rw [List.nodup_cons]
      refine ⟨?_, ihnodup⟩
      intro hmem
      have hfin := List.mem_toFinset.mpr hmem
      rw [ihset, pendingSet_update_none] at hfin
      exact (Finset.mem_erase.mp hfin).1 rfl
    · rw [List.toFinset_cons, ihset, pendingSet_update_none, Finset.insert_erase hdmem]
    · rw [List.length_cons, ihlen]

/-- Witness for C2: three requesters (directions 1, 4, 6) at a junction
with free capacity 2 < 3 are all granted within 3 ticks, each exactly
once. -/
theorem C2_round_robin_fairness_witness :
    0 < 2 ∧
    optCount (fun d : Dir =>
      if d = (1 : Dir) ∨ d = (4 : Dir) ∨ d = (6 : Dir) then some d.val else none) = 3 ∧
    ((fairnessRun 2 (fun d : Dir =>
        if d = (1 : Dir) ∨ d = (4 : Dir) ∨ d = (6 : Dir) then some d.val else none) 0 3).Nodup ∧
     (fairnessRun 2 (fun d : Dir =>
        if d = (1 : Dir) ∨ d = (4 : Dir) ∨ d = (6 : Dir) then some d.val else none) 0 3).toFinset =
       pendingSet (fun d : Dir =>
        if d = (1 : Dir) ∨ d = (4 : Dir) ∨ d = (6 : Dir) then some d.val else none) ∧
     (fairnessRun 2 (fun d : Dir =>
        if d = (1 : Dir) ∨ d = (4 : Dir) ∨ d = (6 : Dir) then some d.val else none) 0 3).length = 3) :=
  ⟨by decide, by decide,
   C2_round_robin_fairness 2 (by decide) 3
     (fun d : Dir => if d = (1 : Dir) ∨ d = (4 : Dir) ∨ d = (6 : Dir) then some d.val else none)
     0 (by decide)⟩

/-- insertDesc inserts, so membership is the original membership plus the
new element. -/
theorem insertDesc_mem (x z : ℕ × ℚ) :
    ∀ l : List (ℕ × ℚ), z ∈ Dispatcher.insertDesc x l ↔ z = x ∨ z ∈ l := by
  intro l
  induction l with
  | nil => simp [Dispatcher.insertDesc]
  | cons y ys ih =>
    unfold Dispatcher.insertDesc
    by_cases hxy : x.2 ≥ y.2
    · rw [if_pos hxy]
      simp [List.mem_cons]
    · rw [if_neg hxy]
      simp only [List.mem_cons, ih]
      tauto

/-- The stable sort preserves membership. -/
theorem sortDesc_mem (z : ℕ × ℚ) :
    ∀ l : List (ℕ × ℚ), z ∈ Dispatcher.sortDesc l ↔ z ∈ l := by
  intro l
  induction l with
  | nil => simp [Dispatcher.sortDesc]
  | cons x xs ih =>
    show z ∈ Dispatcher.insertDesc x (Dispatcher.sortDesc xs) ↔ _
    rw [insertDesc_mem, ih]
    simp [List.mem_cons]

/-- The stable sort of a nonempty list is nonempty. -/
theorem sortDesc_eq_nil_iff : ∀ l : List (ℕ × ℚ), Dispatcher.sortDesc l = [] ↔ l = [] := by
  intro l
  cases l with
  | nil => simp [Dispatcher.sortDesc]
  | cons x xs =>
    simp only [Dispatcher.sortDesc]
    constructor
    · intro h
      cases hs : Dispatcher.sortDesc xs with
      | nil => rw [hs] at h; exact absurd h (by simp [Dispatcher.insertDesc])
      | cons y ys =>
        rw [hs] at h
        unfold Dispatcher.insertDesc at h
        by_cases hxy : x.2 ≥ y.2
        · rw [if_pos hxy] at h; simp at h
        · rw [if_neg hxy] at h; simp at h
    · intro h
      simp at h

/-- The head of the stable descending sort is the first maximal-score
element of the input — Python's sorted-stably-descending list starts with
the earliest-listed argmax. -/
theorem sortDesc_head : ∀ l : List (ℕ × ℚ),
    (Dispatcher.sortDesc l).head? = Dispatcher.firstMaxByScore l := by
  intro l
  induction l with
  | nil => rfl
  | cons x xs ih =>
    cases hs : Dispatcher.sortDesc xs with
    | nil =>
      have hfm : Dispatcher.firstMaxByScore xs = none := by rw [← ih, hs]; rfl
      show (Dispatcher.insertDesc x (Dispatcher.sortDesc xs)).head? =
        Dispatcher.firstMaxByScore (x :: xs)
      rw [hs]
      unfold Dispatcher.firstMaxByScore
      rw [hfm]
      rfl
    | cons y ys =>
      have hfm : Dispatcher.firstMaxByScore xs = some y := by rw [← ih, hs]; rfl
      show (Dispatcher.insertDesc x (Dispatcher.sortDesc xs)).head? =
        Dispatcher.firstMaxByScore (x :: xs)
      rw [hs]
      unfold Dispatcher.firstMaxByScore
      rw [hfm]
      unfold Dispatcher.insertDesc
      dsimp only
      by_cases hxy : x.2 ≥ y.2
      · rw [if_pos hxy, if_neg (not_lt.mpr hxy)]
        rfl
      · rw [if_neg hxy, if_pos (lt_of_not_ge hxy)]
        rfl

/-- The first maximum is a member and dominates every score. -/
theorem firstMax_spec : ∀ (l : List (ℕ × ℚ)) (m : ℕ × ℚ),
    Dispatcher.firstMaxByScore l = some m → m ∈ l ∧ ∀ z ∈ l, z.2 ≤ m.2 := by
  intro l
  induction l with
  | nil =>
    intro m h
    exact absurd h (by simp [Dispatcher.firstMaxByScore])
  | cons x xs ih =>
    intro m h
    unfold Dispatcher.firstMaxByScore at h
    cases hf : Dispatcher.firstMaxByScore xs with
    | none =>
      rw [hf] at h
      dsimp only at h
      have hx := Option.some.inj h
      subst hx
      cases xs with
      | nil =>
        refine ⟨List.mem_singleton_self x, ?_⟩
        intro z hz
        rw [List.mem_singleton.mp hz]
      | cons a as =>
        exfalso
        unfold Dispatcher.firstMaxByScore at hf
        cases hfa : Dispatcher.firstMaxByScore as with
        | none => rw [hfa] at hf; simp at hf
        | some b =>
          rw [hfa] at hf
          dsimp only at hf
          split_ifs at hf <;> simp at hf
    | some y =>
      rw [hf] at h
      dsimp only at h
      obtain ⟨hy_mem, hy_max⟩ := ih y hf
      by_cases hyx : y.2 > x.2
      · rw [if_pos hyx] at h
        have hm := Option.some.inj h
        subst hm
        refine ⟨List.mem_cons_of_mem x hy_mem, ?_⟩
        intro z hz
        rcases List.mem_cons.mp hz with rfl | hz'
        · exact le_of_lt hyx
        · exact hy_max z hz'
      · rw [if_neg hyx] at h
        have hm := Option.some.inj h
        subst hm
        refine ⟨List.mem_cons_self x xs, ?_⟩
        intro z hz
        rcases List.mem_cons.mp hz with rfl | hz'
        · exact le_refl _
        · exact le_trans (hy_max z hz') (not_lt.mp hyx)

/-- An eligible entry indexes a real taxi. -/
theorem eligibleTaxis_index (taxis : List DTaxi) (board : List FareEntryD)
    (score : ℕ → ℚ) (p : ℕ × ℚ)
    (hp : p ∈ Dispatcher.eligibleTaxis taxis board score) :
    ∃ t, taxis.get? p.1 = some t := by
  unfold Dispatcher.eligibleTaxis at hp
  obtain ⟨i, _, hi⟩ := List.mem_filterMap.mp hp
  cases hget : taxis.get? i with
  | none => rw [hget] at hi; simp at hi
  | some t =>
    rw [hget] at hi
    dsimp only at hi
    by_cases hloc : t.location.isSome = true
    · rw [if_pos hloc] at hi
      have := Option.some.inj hi
      rw [← this]
      exact ⟨t, hget⟩
    · rw [if_neg hloc] at hi
      simp at hi

/-- C8: with at least one eligible taxi, Dispatcher._allocateFare selects
exactly one winner — the first taxi in input order among those of maximal
adjusted score (Python's stable descending sort breaks ties by input
order, so the choice is a function of the inputs: deterministic) — and the
emitted notifications contain at most one message, which is a FARE_ALLOC
to the winner's id; a non-selected bidder therefore never receives
FARE_ALLOC for the fare. -/
theorem C8_allocation_unique_winner (taxis : List DTaxi) (board : List FareEntryD)
    (score : ℕ → ℚ) (fareQ : List (ℤ × ℤ)) (worldTaxis : List TaxiId)
    (onDuty : TaxiId → Bool) (origin destination : ℤ × ℤ)
    (hne : Dispatcher.eligibleTaxis taxis board score ≠ []) :
    (∃ i s, Dispatcher.firstMaxByScore (Dispatcher.eligibleTaxis taxis board score) =
        some (i, s) ∧
      (Dispatcher.allocateFare taxis board score fareQ worldTaxis onDuty
        origin destination).1 = some i ∧
      (i, s) ∈ Dispatcher.eligibleTaxis taxis board score ∧
      (∀ z ∈ Dispatcher.eligibleTaxis taxis board score, z.2 ≤ s)) ∧
    (Dispatcher.allocateFare taxis board score fareQ worldTaxis onDuty
      origin destination).2.length ≤ 1 ∧
    (∀ p ∈ (Dispatcher.allocateFare taxis board score fareQ worldTaxis onDuty
        origin destination).2,
      ∃ i t, (Dispatcher.allocateFare taxis board score fareQ worldTaxis onDuty
          origin destination).1 = some i ∧
        taxis.get? i = some t ∧ p.1 = t.tid ∧ p.2 = Msg.fareAlloc origin destination) := by
  cases hs : Dispatcher.sortDesc (Dispatcher.eligibleTaxis taxis board score) with
  | nil => exact absurd ((sortDesc_eq_nil_iff _).mp hs) hne
  | cons hd tl =>
    obtain ⟨i, s⟩ := hd
    have hfm : Dispatcher.firstMaxByScore (Dispatcher.eligibleTaxis taxis board score) =
        some (i, s) := by
      rw [← sortDesc_head, hs]
      rfl
    obtain ⟨hmem, hmax⟩ := firstMax_spec _ _ hfm
    obtain ⟨t, hget⟩ := eligibleTaxis_index taxis board score (i, s) hmem
    have hr : Dispatcher.allocateFare taxis board score fareQ worldTaxis onDuty
        origin destination =
        (some i, NetWorld.allocateFare fareQ worldTaxis onDuty origin destination t.tid) := by
      simp only [Dispatcher.allocateFare, hs, hget]
    rw [hr]
    refine ⟨⟨i, s, hfm, rfl, hmem, hmax⟩, ?_, ?_⟩
    · unfold NetWorld.allocateFare
      split_ifs <;> simp
    · intro p hp
      unfold NetWorld.allocateFare at hp
      split_ifs at hp
      · rcases List.mem_singleton.mp hp with rfl
        exact ⟨i, t, rfl, hget, rfl, rfl⟩
      · simp at hp

/-- Witness for C8: two on-grid taxis with equal scores; the earlier-listed
taxi (index 0, id 3) wins and is the only possible FARE_ALLOC recipient. -/
theorem C8_allocation_unique_winner_witness :
    Dispatcher.eligibleTaxis [⟨3, some (0, 0)⟩, ⟨8, some (1, 1)⟩] [] (fun _ => 1) ≠ [] ∧
    ((∃ i s, Dispatcher.firstMaxByScore
        (Dispatcher.eligibleTaxis [⟨3, some (0, 0)⟩, ⟨8, some (1, 1)⟩] [] (fun _ => 1)) =
          some (i, s) ∧
      (Dispatcher.allocateFare [⟨3, some (0, 0)⟩, ⟨8, some (1, 1)⟩] [] (fun _ => 1)
        [(0, 0)] [3, 8] (fun _ => true) (0, 0) (2, 2)).1 = some i ∧
      (i, s) ∈ Dispatcher.eligibleTaxis [⟨3, some (0, 0)⟩, ⟨8, some (1, 1)⟩] [] (fun _ => 1) ∧
      (∀ z ∈ Dispatcher.eligibleTaxis [⟨3, some (0, 0)⟩, ⟨8, some (1, 1)⟩] [] (fun _ => 1),
        z.2 ≤ s)) ∧
    (Dispatcher.allocateFare [⟨3, some (0, 0)⟩, ⟨8, some (1, 1)⟩] [] (fun _ => 1)
      [(0, 0)] [3, 8] (fun _ => true) (0, 0) (2, 2)).2.length ≤ 1 ∧
    (∀ p ∈ (Dispatcher.allocateFare [⟨3, some (0, 0)⟩, ⟨8, some (1, 1)⟩] [] (fun _ => 1)
        [(0, 0)] [3, 8] (fun _ => true) (0, 0) (2, 2)).2,
      ∃ i t, (Dispatcher.allocateFare [⟨3, some (0, 0)⟩, ⟨8, some (1, 1)⟩] [] (fun _ => 1)
          [(0, 0)] [3, 8] (fun _ => true) (0, 0) (2, 2)).1 = some i ∧
        ([⟨3, some (0, 0)⟩, ⟨8, some (1, 1)⟩] : List DTaxi).get? i = some t ∧ p.1 = t.tid ∧
        p.2 = Msg.fareAlloc (0, 0) (2, 2))) :=
  ⟨by decide,
   C8_allocation_unique_winner [⟨3, some (0, 0)⟩, ⟨8, some (1, 1)⟩] [] (fun _ => 1)
     [(0, 0)] [3, 8] (fun _ => true) (0, 0) (2, 2) (by decide)⟩

/-- C9: the code contradicts the claim. On an abandoned fare that was never
allocated, Dispatcher.cancelFare reads entry.taxi = -1 and indexes the taxi
list with it; Python's negative indexing silently selects the LAST
registered taxi, so taxi 8 — never assigned to the fare — receives
FARE_CANCEL (first conjunct); the intended behaviour appears only for a
genuinely assigned fare (second conjunct, where the assigned taxi at index
0, id 3, is notified). -/
theorem C9_cancelFare_spurious_notification :
    (Dispatcher.cancelFare [⟨(0, 0), (1, 1), 0, 10, -1, []⟩] [3, 8] [3, 8]
      (fun _ => true) (0, 0) (1, 1) 0).2 = [(8, Msg.fareCancel (0, 0))] ∧
    (Dispatcher.cancelFare [⟨(0, 0), (1, 1), 0, 10, 0, []⟩] [3, 8] [3, 8]
      (fun _ => true) (0, 0) (1, 1) 0).2 = [(3, Msg.fareCancel (0, 0))] := by
  constructor
  · decide
  · decide

end AITaxi
